import Mathlib

/-!
Verification of the Santa_Tracker route timeline & normalization engine.

Shallow embedding of the core of the repository:
  * `src/src/utils/route_simulator.py` (timeline state machine),
  * `src/src/utils/locations.py` (schema normalization and validation),
  * `src/src/app.py` (simulation-engine sort).

Conventions of the embedding:
  * timestamps are integers (the Python code compares parsed `datetime`
    values, a totally ordered time axis; only order and differences matter);
  * Python floats are modelled as rationals `ℚ`;
  * Python exceptions are modelled as `Except` error values;
  * logging calls are dropped (they do not affect the data flow).
-/

namespace Santa

/-! ## Embedding of `route_simulator.py` -/

/-- A `Location` as consumed by `simulate_route_at_time`: the fields the
simulator reads.  `arrival_time`/`departure_time` are `none` when the
field is missing/empty or does not parse (`datetime.fromisoformat` failure);
`some t` models a present, parseable timestamp. -/
structure SimLoc where
  name : String
  latitude : ℚ
  longitude : ℚ
  utc_offset : ℚ := 0
  priority : Option ℤ := none
  fun_facts : Option String := none
  arrival_time : Option ℤ := none
  departure_time : Option ℤ := none
deriving DecidableEq, Repr

/-- Embeds `calculate_progress_between_locations` (route_simulator.py lines 9-35). -/
def calculate_progress_between_locations (start_time end_time current_time : ℤ) : ℚ :=
  if current_time ≤ start_time then 0
  else if end_time ≤ current_time then 1
  else
    let total_duration : ℤ := end_time - start_time
    if total_duration ≤ 0 then 0
    else ((current_time - start_time : ℤ) : ℚ) / ((total_duration : ℤ) : ℚ)

/-- Embeds `interpolate_position` (route_simulator.py lines 38-54). -/
def interpolate_position (loc1 loc2 : SimLoc) (progress : ℚ) : ℚ × ℚ :=
  (loc1.latitude + (loc2.latitude - loc1.latitude) * progress,
   loc1.longitude + (loc2.longitude - loc1.longitude) * progress)

/-- Result dictionary of `simulate_route_at_time`; absent keys are `none`.
The human-readable `message` entry is dropped (pure presentation). -/
structure SimResult where
  status : String
  current_location : Option SimLoc := none
  current_position : Option (ℚ × ℚ) := none
  previous_location : Option SimLoc := none
  next_location : Option SimLoc := none
  travel_progress : Option ℚ := none
  locations_visited : Option ℕ := none
  total_locations : Option ℕ := none
  progress : Option ℚ := none
deriving DecidableEq, Repr

/-- One parsed entry of `locations_with_times`: `(loc, arrival, departure)`. -/
abbrev TimedLoc := SimLoc × ℤ × ℤ

def entryArr (e : TimedLoc) : ℤ := e.2.1

def entryDep (e : TimedLoc) : ℤ := e.2.2

/-- The filtering loop of `simulate_route_at_time` (lines 86-100): keep
locations whose arrival and departure times are present and parse. -/
def locationsWithTimes (locations : List SimLoc) : List TimedLoc :=
  locations.filterMap fun l =>
    match l.arrival_time, l.departure_time with
    | some a, some d => some (l, a, d)
    | _, _ => none

/-- The scanning loop of `simulate_route_at_time` (lines 146-234): `i` is the
running index of `enumerate`, `prev` the previous timed entry's location,
`total` is `len(locations_with_times)`.  Falling off the end yields the
source's "unknown" safe default. -/
def scanRoute (t : ℤ) (total : ℕ) : Option SimLoc → ℕ → List TimedLoc → SimResult
  | _, _, [] => { status := "unknown" }
  | prev, i, e :: rest =>
    if entryArr e ≤ t ∧ t < entryDep e then
      { status := "at_location"
        current_location := some e.1
        previous_location := prev
        next_location := rest.head?.map (fun e2 => e2.1)
        travel_progress := none
        locations_visited := some (i + 1)
        total_locations := some total
        progress := some (((i + 1 : ℕ) : ℚ) / (total : ℚ)) }
    else
      match rest with
      | e2 :: _ =>
        if entryDep e ≤ t ∧ t < entryArr e2 then
          let travel := calculate_progress_between_locations (entryDep e) (entryArr e2) t
          { status := "traveling"
            current_position := some (interpolate_position e.1 e2.1 travel)
            previous_location := some e.1
            next_location := some e2.1
            travel_progress := some travel
            locations_visited := some (i + 1)
            total_locations := some total
            progress := some ((((i + 1 : ℕ) : ℚ) + travel) / (total : ℚ)) }
        else
          scanRoute t total (some e.1) (i + 1) rest
      | [] => { status := "unknown" }

/-- Embeds `simulate_route_at_time` after the time-parsing filter: the branch
structure of lines 102-234 over the already-filtered list. -/
def simulateFiltered (t : ℤ) : List TimedLoc → SimResult
  | [] => { status := "no_times" }
  | first :: rest =>
    if t < entryArr first then
      { status := "not_started"
        next_location := some first.1
        locations_visited := some 0
        total_locations := some (first :: rest).length
        progress := some 0 }
    else if entryDep ((first :: rest).getLast (List.cons_ne_nil _ _)) ≤ t then
      { status := "completed"
        current_location := some (((first :: rest).getLast (List.cons_ne_nil _ _)).1)
        locations_visited := some (first :: rest).length
        total_locations := some (first :: rest).length
        progress := some 1 }
    else
      scanRoute t (first :: rest).length none 0 (first :: rest)

/-- Embeds `simulate_route_at_time` (route_simulator.py lines 57-234). -/
def simulate_route_at_time (locations : List SimLoc) (simulation_time : ℤ) : SimResult :=
  if locations.isEmpty then { status := "no_route" }
  else simulateFiltered simulation_time (locationsWithTimes locations)

end Santa
namespace Santa

lemma scanRoute_at_eq (t : ℤ) (total : ℕ) :
    ∀ (L : List TimedLoc) (i i0 : ℕ) (prev : Option SimLoc) (ei : TimedLoc),
      L.get? i = some ei →
      (∀ j e', j < i → L.get? j = some e' → entryDep e' ≤ t) →
      (∀ j e', 1 ≤ j → j ≤ i → L.get? j = some e' → entryArr e' ≤ t) →
      entryArr ei ≤ t → t < entryDep ei →
      (scanRoute t total prev i0 L).status = "at_location" ∧
      (scanRoute t total prev i0 L).current_location = some ei.1 ∧
      (scanRoute t total prev i0 L).travel_progress = none ∧
      (scanRoute t total prev i0 L).locations_visited = some (i0 + i + 1) ∧
      (scanRoute t total prev i0 L).progress = some (((i0 + i + 1 : ℕ) : ℚ) / (total : ℚ)) := by
  intro L
  induction L with
  | nil => intro i i0 prev ei hget; simp [List.get?] at hget
  | cons e rest ih =>
    intro i i0 prev ei hget hD hA harr hdep
    cases i with
    | zero =>
      rw [List.get?_cons_zero, Option.some_inj] at hget
      subst hget
      have hc : entryArr e ≤ t ∧ t < entryDep e := ⟨harr, hdep⟩
      simp only [scanRoute]
      rw [if_pos hc]
      exact ⟨rfl, rfl, rfl, rfl, rfl⟩
    | succ n =>
      rw [List.get?_cons_succ] at hget
      have hdep0 : entryDep e ≤ t := hD 0 e (Nat.succ_pos n) List.get?_cons_zero
      have hnotat : ¬(entryArr e ≤ t ∧ t < entryDep e) := fun hcon =>
        absurd hcon.2 (not_lt.mpr hdep0)
      cases rest with
      | nil => simp [List.get?] at hget
      | cons e2 rest' =>
        have harr2 : entryArr e2 ≤ t :=
          hA 1 e2 le_rfl (by omega) (by simp)
        have hnottr : ¬(entryDep e ≤ t ∧ t < entryArr e2) := fun hcon =>
          absurd hcon.2 (not_lt.mpr harr2)
        have hstep : scanRoute t total prev i0 (e :: e2 :: rest') =
            scanRoute t total (some e.1) (i0 + 1) (e2 :: rest') := by
          simp only [scanRoute]
          rw [if_neg hnotat, if_neg hnottr]
        rw [hstep]
        have hrec := ih n (i0 + 1) (some e.1) ei hget
          (fun j e' hj hg => hD (j + 1) e' (by omega) (by simpa using hg))
          (fun j e' hj1 hji hg => hA (j + 1) e' (by omega) (by omega) (by simpa using hg))
          harr hdep
        have hn : i0 + 1 + n + 1 = i0 + (n + 1) + 1 := by omega
        refine ⟨hrec.1, hrec.2.1, hrec.2.2.1, ?_, ?_⟩
        · rw [hrec.2.2.2.1, hn]
        · rw [hrec.2.2.2.2, hn]

end Santa
namespace Santa

lemma scanRoute_travel_eq (t : ℤ) (total : ℕ) :
    ∀ (L : List TimedLoc) (i i0 : ℕ) (prev : Option SimLoc) (ei ei1 : TimedLoc),
      L.get? i = some ei → L.get? (i + 1) = some ei1 →
      (∀ j e', j ≤ i → L.get? j = some e' → entryDep e' ≤ t) →
      (∀ j e', 1 ≤ j → j ≤ i → L.get? j = some e' → entryArr e' ≤ t) →
      t < entryArr ei1 →
      (scanRoute t total prev i0 L).status = "traveling" ∧
      (scanRoute t total prev i0 L).current_position =
        some (interpolate_position ei.1 ei1.1
          (calculate_progress_between_locations (entryDep ei) (entryArr ei1) t)) ∧
      (scanRoute t total prev i0 L).travel_progress =
        some (calculate_progress_between_locations (entryDep ei) (entryArr ei1) t) ∧
      (scanRoute t total prev i0 L).locations_visited = some (i0 + i + 1) ∧
      (scanRoute t total prev i0 L).progress =
        some ((((i0 + i + 1 : ℕ) : ℚ) +
          calculate_progress_between_locations (entryDep ei) (entryArr ei1) t) / (total : ℚ)) := by
  intro L
  induction L with
  | nil => intro i i0 prev ei ei1 hget; simp [List.get?] at hget
  | cons e rest ih =>
    intro i i0 prev ei ei1 hget hget1 hD hA harr1
    cases i with
    | zero =>
      rw [List.get?_cons_zero, Option.some_inj] at hget
      subst hget
      rw [List.get?_cons_succ] at hget1
      have hdep0 : entryDep e ≤ t := hD 0 e le_rfl List.get?_cons_zero
      have hnotat : ¬(entryArr e ≤ t ∧ t < entryDep e) := fun hcon =>
        absurd hcon.2 (not_lt.mpr hdep0)
      cases rest with
      | nil => simp [List.get?] at hget1
      | cons e2 rest' =>
        rw [List.get?_cons_zero, Option.some_inj] at hget1
        subst hget1
        simp only [scanRoute]
        rw [if_neg hnotat, if_pos ⟨hdep0, harr1⟩]
        exact ⟨rfl, rfl, rfl, rfl, rfl⟩
    | succ n =>
      rw [List.get?_cons_succ] at hget
      rw [List.get?_cons_succ] at hget1
      have hdep0 : entryDep e ≤ t := hD 0 e (by omega) List.get?_cons_zero
      have hnotat : ¬(entryArr e ≤ t ∧ t < entryDep e) := fun hcon =>
        absurd hcon.2 (not_lt.mpr hdep0)
      cases rest with
      | nil => simp [List.get?] at hget
      | cons e2 rest' =>
        have harr2 : entryArr e2 ≤ t := hA 1 e2 le_rfl (by omega) (by simp)
        have hnottr : ¬(entryDep e ≤ t ∧ t < entryArr e2) := fun hcon =>
          absurd hcon.2 (not_lt.mpr harr2)
        have hstep : scanRoute t total prev i0 (e :: e2 :: rest') =
            scanRoute t total (some e.1) (i0 + 1) (e2 :: rest') := by
          simp only [scanRoute]
          rw [if_neg hnotat, if_neg hnottr]
        rw [hstep]
        have hrec := ih n (i0 + 1) (some e.1) ei ei1 hget hget1
          (fun j e' hj hg => hD (j + 1) e' (by omega) (by simpa using hg))
          (fun j e' hj1 hji hg => hA (j + 1) e' (by omega) (by omega) (by simpa using hg))
          harr1
        have hn : i0 + 1 + n + 1 = i0 + (n + 1) + 1 := by omega
        refine ⟨hrec.1, hrec.2.1, hrec.2.2.1, ?_, ?_⟩
        · rw [hrec.2.2.2.1, hn]
        · rw [hrec.2.2.2.2, hn]

/-- From per-stop `arrival ≤ departure` and pairwise separation
`departure i ≤ arrival j` (for `i < j`), arrivals are below later departures. -/
lemma arr_le_dep_of_le (L : List TimedLoc)
    (hAD : ∀ e ∈ L, entryArr e ≤ entryDep e)
    (hSep : ∀ i j ei ej, i < j → L.get? i = some ei → L.get? j = some ej →
      entryDep ei ≤ entryArr ej)
    {i j : ℕ} {ei ej : TimedLoc} (hij : i ≤ j)
    (hi : L.get? i = some ei) (hj : L.get? j = some ej) :
    entryArr ei ≤ entryDep ej := by
  rcases lt_or_eq_of_le hij with hlt | rfl
  · exact le_trans (hAD ei (List.get?_mem hi))
      (le_trans (hSep i j ei ej hlt hi hj) (hAD ej (List.get?_mem hj)))
  · rw [hi] at hj
    cases hj
    exact hAD ei (List.get?_mem hi)

lemma dep_le_last (L : List TimedLoc)
    (hAD : ∀ e ∈ L, entryArr e ≤ entryDep e)
    (hSep : ∀ i j ei ej, i < j → L.get? i = some ei → L.get? j = some ej →
      entryDep ei ≤ entryArr ej)
    {i : ℕ} {ei : TimedLoc} (hi : L.get? i = some ei) (hne : L ≠ []) :
    entryDep ei ≤ entryDep (L.getLast hne) := by
  have hlast : L.get? (L.length - 1) = some (L.getLast hne) := by
    rw [List.getLast_eq_get]
    exact List.get?_eq_get _
  have hilen : i < L.length := List.get?_eq_some.mp hi |>.1
  rcases lt_or_eq_of_le (Nat.le_sub_one_of_lt hilen) with hlt | heq
  · exact le_trans (hSep i (L.length - 1) ei _ hlt hi hlast)
      (hAD _ (List.get?_mem hlast))
  · rw [heq] at hi
    rw [hi] at hlast
    cases hlast
    exact le_rfl

end Santa
namespace Santa

lemma simulate_eq_filtered (locations : List SimLoc) (t : ℤ)
    (hne : locationsWithTimes locations ≠ []) :
    simulate_route_at_time locations t = simulateFiltered t (locationsWithTimes locations) := by
  have hloc : locations ≠ [] := by
    intro h
    apply hne
    rw [h]
    rfl
  simp [simulate_route_at_time, hloc]

/-- With a chronologically consistent schedule, if `arrival i ≤ now <
departure i` the simulator is AT the `i`-th timed stop. -/
lemma simulateFiltered_at (L : List TimedLoc) (t : ℤ)
    (hAD : ∀ e ∈ L, entryArr e ≤ entryDep e)
    (hSep : ∀ i j ei ej, i < j → L.get? i = some ei → L.get? j = some ej →
      entryDep ei ≤ entryArr ej)
    {i : ℕ} {ei : TimedLoc} (hgi : L.get? i = some ei)
    (harr : entryArr ei ≤ t) (hdep : t < entryDep ei) :
    (simulateFiltered t L).status = "at_location" ∧
    (simulateFiltered t L).current_location = some ei.1 ∧
    (simulateFiltered t L).travel_progress = none ∧
    (simulateFiltered t L).locations_visited = some (i + 1) ∧
    (simulateFiltered t L).progress = some (((i + 1 : ℕ) : ℚ) / (L.length : ℚ)) := by
  cases L with
  | nil => simp [List.get?] at hgi
  | cons first rest =>
    have h0 : (first :: rest).get? 0 = some first := rfl
    have harr0 : entryArr first ≤ t := by
      cases Nat.eq_zero_or_pos i with
      | inl hz =>
        subst hz
        rw [h0, Option.some_inj] at hgi
        rw [hgi]
        exact harr
      | inr hpos =>
        exact le_trans (le_trans (hAD first (by simp)) (hSep 0 i first ei hpos h0 hgi)) harr
    have hnot1 : ¬(t < entryArr first) := not_lt.mpr harr0
    have hnot2 : ¬(entryDep ((first :: rest).getLast (List.cons_ne_nil _ _)) ≤ t) := by
      have := dep_le_last (first :: rest) hAD hSep hgi (List.cons_ne_nil _ _)
      omega
    have hunf : simulateFiltered t (first :: rest) =
        scanRoute t (first :: rest).length none 0 (first :: rest) := by
      simp only [simulateFiltered]
      rw [if_neg hnot1, if_neg hnot2]
    rw [hunf]
    have hscan := scanRoute_at_eq t (first :: rest).length (first :: rest) i 0 none ei hgi
      (fun j e' hj hg => by
        have h1 := hSep j i e' ei hj hg hgi
        omega)
      (fun j e' hj1 hji hg => by
        rcases lt_or_eq_of_le hji with hlt | rfl
        · have h1 := hAD e' (List.get?_mem hg)
          have h2 := hSep j i e' ei hlt hg hgi
          omega
        · rw [hg, Option.some_inj] at hgi
          rw [hgi]
          exact harr)
      harr hdep
    simpa using hscan

/-- With a chronologically consistent schedule, if `departure i ≤ now <
arrival (i+1)` the simulator is TRAVELING between stops `i` and `i+1`. -/
lemma simulateFiltered_travel (L : List TimedLoc) (t : ℤ)
    (hAD : ∀ e ∈ L, entryArr e ≤ entryDep e)
    (hSep : ∀ i j ei ej, i < j → L.get? i = some ei → L.get? j = some ej →
      entryDep ei ≤ entryArr ej)
    {i : ℕ} {ei ei1 : TimedLoc} (hgi : L.get? i = some ei)
    (hgi1 : L.get? (i + 1) = some ei1)
    (hdep : entryDep ei ≤ t) (harr1 : t < entryArr ei1) :
    (simulateFiltered t L).status = "traveling" ∧
    (simulateFiltered t L).current_position =
      some (interpolate_position ei.1 ei1.1
        (calculate_progress_between_locations (entryDep ei) (entryArr ei1) t)) ∧
    (simulateFiltered t L).travel_progress =
      some (calculate_progress_between_locations (entryDep ei) (entryArr ei1) t) ∧
    (simulateFiltered t L).locations_visited = some (i + 1) ∧
    (simulateFiltered t L).progress =
      some ((((i + 1 : ℕ) : ℚ) +
        calculate_progress_between_locations (entryDep ei) (entryArr ei1) t) /
          (L.length : ℚ)) := by
  cases L with
  | nil => simp [List.get?] at hgi
  | cons first rest =>
    have h0 : (first :: rest).get? 0 = some first := rfl
    have harr0 : entryArr first ≤ t := by
      have h1 := arr_le_dep_of_le _ hAD hSep (Nat.zero_le i) h0 hgi
      omega
    have hnot1 : ¬(t < entryArr first) := not_lt.mpr harr0
    have hnot2 : ¬(entryDep ((first :: rest).getLast (List.cons_ne_nil _ _)) ≤ t) := by
      have h1 := dep_le_last (first :: rest) hAD hSep hgi1 (List.cons_ne_nil _ _)
      have h2 := hAD ei1 (List.get?_mem hgi1)
      omega
    have hunf : simulateFiltered t (first :: rest) =
        scanRoute t (first :: rest).length none 0 (first :: rest) := by
      simp only [simulateFiltered]
      rw [if_neg hnot1, if_neg hnot2]
    rw [hunf]
    have hscan := scanRoute_travel_eq t (first :: rest).length (first :: rest) i 0 none ei ei1
      hgi hgi1
      (fun j e' hj hg => by
        rcases lt_or_eq_of_le hj with hlt | rfl
        · have h1 := hSep j i e' ei hlt hg hgi
          have h2 := hAD ei (List.get?_mem hgi)
          omega
        · rw [hg, Option.some_inj] at hgi
          rw [hgi]
          exact hdep)
      (fun j e' hj1 hji hg => by
        have h1 := arr_le_dep_of_le _ hAD hSep hji hg hgi
        omega)
      harr1
    simpa using hscan

lemma simulateFiltered_notStarted (L : List TimedLoc) (t : ℤ)
    {e0 : TimedLoc} (hg0 : L.head? = some e0) (harr : t < entryArr e0) :
    (simulateFiltered t L).status = "not_started" ∧
    (simulateFiltered t L).progress = some 0 := by
  cases L with
  | nil => simp at hg0
  | cons first rest =>
    rw [List.head?_cons, Option.some_inj] at hg0
    subst hg0
    simp only [simulateFiltered]
    rw [if_pos harr]
    exact ⟨rfl, rfl⟩

lemma simulateFiltered_completed (L : List TimedLoc) (t : ℤ)
    (hAD : ∀ e ∈ L, entryArr e ≤ entryDep e)
    (hSep : ∀ i j ei ej, i < j → L.get? i = some ei → L.get? j = some ej →
      entryDep ei ≤ entryArr ej)
    (hne : L ≠ []) (hlast : entryDep (L.getLast hne) ≤ t) :
    (simulateFiltered t L).status = "completed" ∧
    (simulateFiltered t L).current_location = some (L.getLast hne).1 ∧
    (simulateFiltered t L).progress = some 1 := by
  cases L with
  | nil => exact absurd rfl hne
  | cons first rest =>
    have h0 : (first :: rest).get? 0 = some first := rfl
    have hlastg : (first :: rest).get? ((first :: rest).length - 1) =
        some ((first :: rest).getLast (List.cons_ne_nil _ _)) := by
      rw [List.getLast_eq_get]
      exact List.get?_eq_get _
    have harr0 : entryArr first ≤ t := by
      have h1 := arr_le_dep_of_le (first :: rest) hAD hSep
        (Nat.zero_le _) h0 hlastg
      omega
    have hnot1 : ¬(t < entryArr first) := not_lt.mpr harr0
    simp only [simulateFiltered]
    rw [if_neg hnot1, if_pos hlast]
    exact ⟨rfl, rfl, rfl⟩

/-- C1: with parseable schedules and a chronologically ordered stop list,
timeline boundaries are closed at arrival and half-open at departure:
at the instant of departure of stop `i` (before arrival of stop `i+1`) the
state is "traveling"; at the instant of arrival of stop `i` (before its
departure) the state is "at_location" at that stop; strictly before the
first arrival it is "not_started"; at or after the last departure it is
"completed" with progress 1.0. -/
theorem C1_timeline_boundaries
    (locations : List SimLoc) (t : ℤ) (L : List TimedLoc)
    (hL : L = locationsWithTimes locations)
    (_hparse : ∀ l ∈ locations, l.arrival_time.isSome ∧ l.departure_time.isSome)
    (hAD : ∀ e ∈ L, entryArr e ≤ entryDep e)
    (hSep : ∀ i j ei ej, i < j → L.get? i = some ei → L.get? j = some ej →
      entryDep ei ≤ entryArr ej) :
    (∀ i ei ei1, L.get? i = some ei → L.get? (i + 1) = some ei1 →
      t = entryDep ei → t < entryArr ei1 →
      (simulate_route_at_time locations t).status = "traveling") ∧
    (∀ i ei, L.get? i = some ei → t = entryArr ei → t < entryDep ei →
      (simulate_route_at_time locations t).status = "at_location" ∧
      (simulate_route_at_time locations t).current_location = some ei.1) ∧
    (∀ e0, L.head? = some e0 → t < entryArr e0 →
      (simulate_route_at_time locations t).status = "not_started") ∧
    (∀ hne : L ≠ [], entryDep (L.getLast hne) ≤ t →
      (simulate_route_at_time locations t).status = "completed" ∧
      (simulate_route_at_time locations t).progress = some 1) := by
  subst hL
  refine ⟨?_, ?_, ?_, ?_⟩
  · intro i ei ei1 hgi hgi1 ht harr1
    have hne : locationsWithTimes locations ≠ [] := by
      intro h
      rw [h] at hgi
      simp [List.get?] at hgi
    rw [simulate_eq_filtered locations t hne]
    exact (simulateFiltered_travel _ t hAD hSep hgi hgi1 (le_of_eq ht.symm) harr1).1
  · intro i ei hgi harr hdep
    have hne : locationsWithTimes locations ≠ [] := by
      intro h
      rw [h] at hgi
      simp [List.get?] at hgi
    rw [simulate_eq_filtered locations t hne]
    have h := simulateFiltered_at _ t hAD hSep hgi (le_of_eq harr.symm) hdep
    exact ⟨h.1, h.2.1⟩
  · intro e0 hg0 harr
    have hne : locationsWithTimes locations ≠ [] := by
      intro h
      rw [h] at hg0
      simp at hg0
    rw [simulate_eq_filtered locations t hne]
    exact (simulateFiltered_notStarted _ t hg0 harr).1
  · intro hne hlast
    rw [simulate_eq_filtered locations t hne]
    have h := simulateFiltered_completed _ t hAD hSep hne hlast
    exact ⟨h.1, h.2.2⟩

def demoA : SimLoc :=
  { name := "A", latitude := 0, longitude := 0,
    arrival_time := some 0, departure_time := some 10 }

def demoB : SimLoc :=
  { name := "B", latitude := 10, longitude := 10,
    arrival_time := some 20, departure_time := some 30 }

/-- Witness for C1 at a concrete two-stop route at the departure instant of
stop A. -/
theorem C1_timeline_boundaries_witness :
    (simulate_route_at_time [demoA, demoB] 10).status = "traveling" := by
  have hdemoL : locationsWithTimes [demoA, demoB] = [(demoA, 0, 10), (demoB, 20, 30)] := rfl
  have h := C1_timeline_boundaries [demoA, demoB] 10 [(demoA, 0, 10), (demoB, 20, 30)]
    hdemoL.symm
    (by intro l hl; fin_cases hl <;> simp [demoA, demoB])
    (by intro e he; fin_cases he <;> simp [demoA, demoB, entryArr, entryDep])
    (by
      intro i j ei ej hij hgi hgj
      have hj2 : j < 2 := (List.get?_eq_some.mp hgj).1
      have hi0 : i = 0 := by omega
      have hj1 : j = 1 := by omega
      subst hi0
      subst hj1
      simp only [List.get?, Option.some_inj] at hgi hgj
      rw [← hgi, ← hgj]
      decide)
  exact h.1 0 (demoA, 0, 10) (demoB, 20, 30) rfl rfl rfl (by decide)

/-- Under `start ≤ current < end`, the progress helper computes exactly the
ratio `(current-start)/(end-start)` clamped to `[0,1]`. -/
lemma calcProgress_eq_clamp (s e c : ℤ) (hs : s ≤ c) (hc : c < e) :
    calculate_progress_between_locations s e c =
      max 0 (min 1 (((c - s : ℤ) : ℚ) / ((e - s : ℤ) : ℚ))) := by
  unfold calculate_progress_between_locations
  rcases eq_or_lt_of_le hs with rfl | hlt
  · simp
  · rw [if_neg (by omega), if_neg (by omega)]
    simp only []
    rw [if_neg (by omega)]
    have hpos : (0 : ℚ) < ((e - s : ℤ) : ℚ) := by
      have : (0 : ℤ) < e - s := by omega
      exact_mod_cast this
    have hnum : (0 : ℚ) < ((c - s : ℤ) : ℚ) := by
      have : (0 : ℤ) < c - s := by omega
      exact_mod_cast this
    have hlt1 : ((c - s : ℤ) : ℚ) / ((e - s : ℤ) : ℚ) < 1 := by
      rw [div_lt_one hpos]
      have : (c - s : ℤ) < e - s := by omega
      exact_mod_cast this
    have hge0 : (0 : ℚ) ≤ ((c - s : ℤ) : ℚ) / ((e - s : ℤ) : ℚ) :=
      div_nonneg (le_of_lt hnum) (le_of_lt hpos)
    rw [min_eq_right (le_of_lt hlt1), max_eq_right hge0]

/-- C2: between consecutive scheduled stops, the simulator is traveling and
interpolates the position linearly with the clamped factor
`(now - departure i) / (arrival (i+1) - departure i)` and reports progress
`(i + 1 + factor) / total`; the spec's two-stop end-to-end example gives
position (5,5) and progress 0.75. -/
theorem C2_in_transit_interpolation
    (locations : List SimLoc) (t : ℤ) (L : List TimedLoc)
    (hL : L = locationsWithTimes locations)
    (hAD : ∀ e ∈ L, entryArr e ≤ entryDep e)
    (hSep : ∀ i j ei ej, i < j → L.get? i = some ei → L.get? j = some ej →
      entryDep ei ≤ entryArr ej) :
    (∀ i ei ei1, L.get? i = some ei → L.get? (i + 1) = some ei1 →
      entryDep ei ≤ t → t < entryArr ei1 →
      (simulate_route_at_time locations t).status = "traveling" ∧
      (simulate_route_at_time locations t).current_position =
        some (interpolate_position ei.1 ei1.1
          (max 0 (min 1
            (((t - entryDep ei : ℤ) : ℚ) / ((entryArr ei1 - entryDep ei : ℤ) : ℚ))))) ∧
      (simulate_route_at_time locations t).progress =
        some ((((i + 1 : ℕ) : ℚ) +
          max 0 (min 1
            (((t - entryDep ei : ℤ) : ℚ) / ((entryArr ei1 - entryDep ei : ℤ) : ℚ)))) /
              (L.length : ℚ))) ∧
    ((simulate_route_at_time [demoA, demoB] 15).status = "traveling" ∧
     (simulate_route_at_time [demoA, demoB] 15).current_position = some (5, 5) ∧
     (simulate_route_at_time [demoA, demoB] 15).progress = some (3 / 4 : ℚ)) := by
  subst hL
  constructor
  · intro i ei ei1 hgi hgi1 hdep harr1
    have hne : locationsWithTimes locations ≠ [] := by
      intro h
      rw [h] at hgi
      simp [List.get?] at hgi
    rw [simulate_eq_filtered locations t hne]
    have h := simulateFiltered_travel _ t hAD hSep hgi hgi1 hdep harr1
    have hclamp := calcProgress_eq_clamp (entryDep ei) (entryArr ei1) t hdep harr1
    refine ⟨h.1, ?_, ?_⟩
    · rw [h.2.1, hclamp]
    · rw [h.2.2.2.2, hclamp]
  · refine ⟨rfl, ?_, ?_⟩
    · show (simulate_route_at_time [demoA, demoB] 15).current_position = some (5, 5)
      simp [simulate_route_at_time, locationsWithTimes, simulateFiltered, scanRoute,
        demoA, demoB, entryArr, entryDep, calculate_progress_between_locations,
        interpolate_position]
      norm_num
    · show (simulate_route_at_time [demoA, demoB] 15).progress = some (3 / 4 : ℚ)
      simp [simulate_route_at_time, locationsWithTimes, simulateFiltered, scanRoute,
        demoA, demoB, entryArr, entryDep, calculate_progress_between_locations,
        interpolate_position]
      norm_num

/-- Witness for C2: the general in-transit clause applied to the concrete
two-stop route at `now = 15`. -/
theorem C2_in_transit_interpolation_witness :
    (simulate_route_at_time [demoA, demoB] 15).status = "traveling" ∧
    (simulate_route_at_time [demoA, demoB] 15).current_position =
      some (interpolate_position demoA demoB
        (max 0 (min 1 (((15 - 10 : ℤ) : ℚ) / ((20 - 10 : ℤ) : ℚ))))) := by
  have h := C2_in_transit_interpolation [demoA, demoB] 15 [(demoA, 0, 10), (demoB, 20, 30)]
    rfl
    (by intro e he; fin_cases he <;> simp [demoA, demoB, entryArr, entryDep])
    (by
      intro i j ei ej hij hgi hgj
      have hj2 : j < 2 := (List.get?_eq_some.mp hgj).1
      have hi0 : i = 0 := by omega
      have hj1 : j = 1 := by omega
      subst hi0
      subst hj1
      simp only [List.get?, Option.some_inj] at hgi hgj
      rw [← hgi, ← hgj]
      decide)
  have h2 := h.1 0 (demoA, 0, 10) (demoB, 20, 30) rfl rfl (by decide) (by decide)
  exact ⟨h2.1, h2.2.1⟩

/-- The stop "C": arrives exactly when `demoA` departs (zero-length transit). -/
def demoC : SimLoc :=
  { name := "C", latitude := 10, longitude := 10,
    arrival_time := some 10, departure_time := some 20 }

/-- Counterexample for C3: at the shared instant of a zero-length transit the
code computes no transit factor at all (the state is "at_location" at the
next stop), and the progress helper evaluates to 0.0 there, not 1.0. -/
theorem C3_zero_length_transit_counterexample :
    calculate_progress_between_locations 10 10 10 = 0 ∧
    (simulate_route_at_time [demoA, demoC] 10).status = "at_location" ∧
    (simulate_route_at_time [demoA, demoC] 10).current_location = some demoC ∧
    (simulate_route_at_time [demoA, demoC] 10).travel_progress = none := by
  refine ⟨rfl, rfl, ?_, rfl⟩
  show (simulate_route_at_time [demoA, demoC] 10).current_location = some demoC
  rfl

/-- C3 (amended): when `arrival (i+1) = departure i`, the shared instant
belongs to stop `i+1` ("at_location", closed at arrival); no transit factor
is produced, and the guarded progress helper returns 0.0 at that instant
without dividing by zero. -/
theorem C3_zero_length_transit_amended
    (locations : List SimLoc) (t : ℤ) (L : List TimedLoc)
    (hL : L = locationsWithTimes locations)
    (hAD : ∀ e ∈ L, entryArr e ≤ entryDep e)
    (hSep : ∀ i j ei ej, i < j → L.get? i = some ei → L.get? j = some ej →
      entryDep ei ≤ entryArr ej)
    (i : ℕ) (ei ei1 : TimedLoc) (hgi : L.get? i = some ei)
    (hgi1 : L.get? (i + 1) = some ei1)
    (hzero : entryArr ei1 = entryDep ei)
    (ht : t = entryDep ei) (hdep1 : t < entryDep ei1) :
    (simulate_route_at_time locations t).status = "at_location" ∧
    (simulate_route_at_time locations t).current_location = some ei1.1 ∧
    (simulate_route_at_time locations t).travel_progress = none ∧
    calculate_progress_between_locations (entryDep ei) (entryArr ei1) t = 0 := by
  subst hL
  have hne : locationsWithTimes locations ≠ [] := by
    intro h
    rw [h] at hgi
    simp [List.get?] at hgi
  rw [simulate_eq_filtered locations t hne]
  have harr1 : entryArr ei1 ≤ t := by rw [hzero, ht]
  have h := simulateFiltered_at _ t hAD hSep hgi1 harr1 hdep1
  refine ⟨h.1, h.2.1, h.2.2.1, ?_⟩
  rw [hzero, ht]
  unfold calculate_progress_between_locations
  rw [if_pos le_rfl]

/-- Witness for the amended C3 at the concrete zero-length-transit route. -/
theorem C3_zero_length_transit_amended_witness :
    (simulate_route_at_time [demoA, demoC] 10).status = "at_location" ∧
    (simulate_route_at_time [demoA, demoC] 10).current_location = some demoC := by
  have h := C3_zero_length_transit_amended [demoA, demoC] 10 [(demoA, 0, 10), (demoC, 10, 20)]
    rfl
    (by intro e he; fin_cases he <;> simp [demoA, demoC, entryArr, entryDep])
    (by
      intro i j ei ej hij hgi hgj
      have hj2 : j < 2 := (List.get?_eq_some.mp hgj).1
      have hi0 : i = 0 := by omega
      have hj1 : j = 1 := by omega
      subst hi0
      subst hj1
      simp only [List.get?, Option.some_inj] at hgi hgj
      rw [← hgi, ← hgj]
      decide)
    0 (demoA, 0, 10) (demoC, 10, 20) rfl rfl rfl rfl (by decide)
  exact ⟨h.1, h.2.1⟩

/-! ## Embedding of `locations.py`: the `Location` dataclass and its
`__post_init__` validation pipeline. -/

/-- Python float `%` with positive divisor: `x % y = x - y * ⌊x / y⌋`. -/
def pymod (x y : ℚ) : ℚ := x - y * (⌊x / y⌋ : ℤ)

inductive LocErr
  | missingLatLng
  | missingTz
  | invalidLatitude (v : ℚ)
  | invalidTzOffset (v : ℚ)
  | invalidPriority (v : ℤ)
deriving DecidableEq, Repr

/-- Constructor arguments of `Location` (numeric fields already coerced to
numbers; the string-parse failure paths of `float()` are not exercised by
numeric inputs). -/
structure LocationArgs where
  name : Option String := none
  region : Option String := none
  lat : Option ℚ := none
  lng : Option ℚ := none
  timezone_offset : Option ℚ := none
  latitude : Option ℚ := none
  longitude : Option ℚ := none
  utc_offset : Option ℚ := none
  arrival_time : Option String := none
  departure_time : Option String := none
  stop_duration : Option ℤ := none
  is_stop : Option Bool := none
  priority : Option ℤ := none
  notes : Option String := none
  fun_facts : Option String := none
  country : Option String := none
deriving DecidableEq, Repr

/-- Embeds `_location_coerce_legacy_fields` (locations.py lines 745-765): fill the
canonical fields from the legacy ones when the canonical ones are absent. -/
def _location_coerce_legacy_fields (a : LocationArgs) : LocationArgs :=
  { a with
    lat := match a.lat with
      | some v => some v
      | none => a.latitude
    lng := match a.lng with
      | some v => some v
      | none => a.longitude
    timezone_offset := match a.timezone_offset with
      | some v => some v
      | none => a.utc_offset }

/-- Embeds `_location_validate_and_normalize_coords` (locations.py lines 768-801):
require lat/lng and timezone, range-check latitude and timezone, wrap
longitude into [-180, 180).  The unusual-offset check only logs a warning
and is dropped here. -/
def _location_validate_and_normalize_coords (lat lng tz : Option ℚ) :
    Except LocErr (ℚ × ℚ × ℚ) :=
  match lat, lng with
  | some latv, some lngv =>
    match tz with
    | none => .error .missingTz
    | some tzv =>
      if ¬(-90 ≤ latv ∧ latv ≤ 90) then .error (.invalidLatitude latv)
      else
        let lngn := pymod (lngv + 180) 360 - 180
        if ¬(-12 ≤ tzv ∧ tzv ≤ 14) then .error (.invalidTzOffset tzv)
        else .ok (latv, lngn, tzv)
  | _, _ => .error .missingLatLng

/-- Embeds `_location_validate_priority` (locations.py lines 815-820). -/
def _location_validate_priority (p : Option ℤ) : Except LocErr Unit :=
  match p with
  | none => .ok ()
  | some v => if 1 ≤ v ∧ v ≤ 3 then .ok () else .error (.invalidPriority v)

/-- A fully constructed `Location` (canonical and legacy numeric fields are
synchronized by `_location_sync_legacy_fields_and_notes`). -/
structure Location where
  name : Option String := none
  region : Option String := none
  lat : ℚ
  lng : ℚ
  timezone_offset : ℚ
  latitude : ℚ
  longitude : ℚ
  utc_offset : ℚ
  arrival_time : Option String := none
  departure_time : Option String := none
  stop_duration : Option ℤ := none
  is_stop : Option Bool := none
  priority : Option ℤ := none
  notes : Option String := none
  fun_facts : Option String := none
  country : Option String := none
deriving DecidableEq, Repr

/-- Embeds `Location.__post_init__` (locations.py lines 60-65): legacy coercion,
coordinate validation/normalization, legacy sync (including the
`notes`/`fun_facts` and `country`/`region` mappings of
`_location_sync_legacy_fields_and_notes`), priority validation. -/
def mkLocation (a0 : LocationArgs) : Except LocErr Location :=
  let a := _location_coerce_legacy_fields a0
  match _location_validate_and_normalize_coords a.lat a.lng a.timezone_offset with
  | .error e => .error e
  | .ok (latv, lngv, tzv) =>
    match _location_validate_priority a.priority with
    | .error e => .error e
    | .ok _ =>
      .ok { name := a.name
            region := a.region
            lat := latv
            lng := lngv
            timezone_offset := tzv
            latitude := latv
            longitude := lngv
            utc_offset := tzv
            arrival_time := a.arrival_time
            departure_time := a.departure_time
            stop_duration := a.stop_duration
            is_stop := a.is_stop
            priority := a.priority
            notes := match a.notes with
              | some s => some s
              | none => a.fun_facts
            fun_facts := a.fun_facts
            country := match a.country with
              | some c => some c
              | none => a.region }

/-- C4: coordinate normalization never fails on longitude: with in-range
latitude and offset it succeeds, stores `((lng + 180) mod 360) - 180` as the
longitude and leaves the latitude unchanged; 181 normalizes to -179, -181 to
179 and 180 to -180. -/
theorem C4_longitude_wraparound :
    (∀ lat lng tz : ℚ, -90 ≤ lat → lat ≤ 90 → -12 ≤ tz → tz ≤ 14 →
      _location_validate_and_normalize_coords (some lat) (some lng) (some tz) =
        .ok (lat, pymod (lng + 180) 360 - 180, tz)) ∧
    pymod ((181 : ℚ) + 180) 360 - 180 = -179 ∧
    pymod ((-181 : ℚ) + 180) 360 - 180 = 179 ∧
    pymod ((180 : ℚ) + 180) 360 - 180 = -180 := by
  refine ⟨?_, ?_, ?_, ?_⟩
  · intro lat lng tz h1 h2 h3 h4
    unfold _location_validate_and_normalize_coords
    dsimp only
    rw [if_neg (not_not_intro ⟨h1, h2⟩), if_neg (not_not_intro ⟨h3, h4⟩)]
  · have hf : ⌊((181 : ℚ) + 180) / 360⌋ = 1 := by
      rw [Int.floor_eq_iff] <;> norm_num
    rw [pymod, hf]
    norm_num
  · have hf : ⌊((-181 : ℚ) + 180) / 360⌋ = -1 := by
      rw [Int.floor_eq_iff] <;> norm_num
    rw [pymod, hf]
    norm_num
  · have hf : ⌊((180 : ℚ) + 180) / 360⌋ = 1 := by
      rw [Int.floor_eq_iff] <;> norm_num
    rw [pymod, hf]
    norm_num

/-- Witness for C4 at latitude 45, longitude 181, offset 0. -/
theorem C4_longitude_wraparound_witness :
    _location_validate_and_normalize_coords (some 45) (some 181) (some 0) =
      .ok (45, -179, 0) := by
  have h := C4_longitude_wraparound
  rw [h.1 45 181 0 (by norm_num) (by norm_num) (by norm_num) (by norm_num), h.2.1]

/-- C5: range rejection regardless of dialect: latitude 91 is rejected
whether it arrives through the canonical `lat` field or the legacy
`latitude` field; utc_offset 15 likewise; priority 0 and 4 are rejected;
and a successful coordinate validation never alters latitude or offset
(no silent clamping), which also forces them to be in range. -/
theorem C5_range_rejection :
    (∀ lng tz : ℚ,
      mkLocation { lat := some 91, lng := some lng, timezone_offset := some tz } =
        .error (.invalidLatitude 91)) ∧
    (∀ lng tz : ℚ,
      mkLocation { latitude := some 91, longitude := some lng, utc_offset := some tz } =
        .error (.invalidLatitude 91)) ∧
    (∀ lat lng : ℚ, -90 ≤ lat → lat ≤ 90 →
      mkLocation { lat := some lat, lng := some lng, timezone_offset := some 15 } =
        .error (.invalidTzOffset 15)) ∧
    (∀ lat lng : ℚ, -90 ≤ lat → lat ≤ 90 →
      mkLocation { latitude := some lat, longitude := some lng, utc_offset := some 15 } =
        .error (.invalidTzOffset 15)) ∧
    (∀ p : ℤ, p = 0 ∨ p = 4 →
      _location_validate_priority (some p) = .error (.invalidPriority p)) ∧
    (∀ lat lng tz : ℚ, ∀ p : ℤ, -90 ≤ lat → lat ≤ 90 → -12 ≤ tz → tz ≤ 14 →
      p = 0 ∨ p = 4 →
      mkLocation { lat := some lat, lng := some lng, timezone_offset := some tz,
                   priority := some p } = .error (.invalidPriority p)) ∧
    (∀ lat lng tz lat2 lng2 tz2 : ℚ,
      _location_validate_and_normalize_coords (some lat) (some lng) (some tz) =
        .ok (lat2, lng2, tz2) →
      lat2 = lat ∧ tz2 = tz ∧ (-90 ≤ lat ∧ lat ≤ 90) ∧ (-12 ≤ tz ∧ tz ≤ 14)) := by
  refine ⟨?_, ?_, ?_, ?_, ?_, ?_, ?_⟩
  · intro lng tz
    simp only [mkLocation, _location_coerce_legacy_fields,
      _location_validate_and_normalize_coords]
    rw [if_pos (by norm_num)]
  · intro lng tz
    simp only [mkLocation, _location_coerce_legacy_fields,
      _location_validate_and_normalize_coords]
    rw [if_pos (by norm_num)]
  · intro lat lng h1 h2
    simp only [mkLocation, _location_coerce_legacy_fields,
      _location_validate_and_normalize_coords]
    rw [if_neg (not_not_intro ⟨h1, h2⟩), if_pos (by norm_num)]
  · intro lat lng h1 h2
    simp only [mkLocation, _location_coerce_legacy_fields,
      _location_validate_and_normalize_coords]
    rw [if_neg (not_not_intro ⟨h1, h2⟩), if_pos (by norm_num)]
  · rintro p (rfl | rfl)
    · simp only [_location_validate_priority]
      rw [if_neg (by norm_num)]
    · simp only [_location_validate_priority]
      rw [if_neg (by norm_num)]
  · intro lat lng tz p h1 h2 h3 h4 hp
    simp only [mkLocation, _location_coerce_legacy_fields,
      _location_validate_and_normalize_coords, _location_validate_priority]
    rw [if_neg (not_not_intro ⟨h1, h2⟩), if_neg (not_not_intro ⟨h3, h4⟩),
      if_neg (by rcases hp with rfl | rfl <;> norm_num)]
  · intro lat lng tz lat2 lng2 tz2 hok
    by_cases hlat : -90 ≤ lat ∧ lat ≤ 90
    · by_cases htz : -12 ≤ tz ∧ tz ≤ 14
      · simp only [_location_validate_and_normalize_coords] at hok
        rw [if_neg (not_not_intro hlat), if_neg (not_not_intro htz)] at hok
        simp only [Except.ok.injEq, Prod.mk.injEq] at hok
        exact ⟨hok.1.symm, hok.2.2.symm, hlat, htz⟩
      · simp only [_location_validate_and_normalize_coords] at hok
        rw [if_neg (not_not_intro hlat), if_pos htz] at hok
        cases hok
    · simp only [_location_validate_and_normalize_coords] at hok
      rw [if_pos hlat] at hok
      cases hok

/-- Witness for C5 at concrete out-of-range inputs. -/
theorem C5_range_rejection_witness :
    mkLocation { lat := some 91, lng := some 10, timezone_offset := some 0 } =
      .error (.invalidLatitude 91) ∧
    mkLocation { latitude := some 45, longitude := some 10, utc_offset := some 15 } =
      .error (.invalidTzOffset 15) ∧
    _location_validate_priority (some 4) = .error (.invalidPriority 4) := by
  have h := C5_range_rejection
  exact ⟨h.1 10 0, h.2.2.2.1 45 10 (by norm_num) (by norm_num),
    h.2.2.2.2.1 4 (Or.inr rfl)⟩

/-! ## Embedding of `locations.py`: the node-parsing pipeline behind
`load_santa_route_from_json`.  File and JSON-string reading are external
I/O (`_load_source_to_obj`); the pipeline below starts from the node list
that `_get_nodes_from_obj` extracts. -/

/-- A raw JSON value in a numeric position: absent/None, a number, a
numeric string (value after comma-stripping), or a non-numeric string. -/
inductive Raw
  | rnone
  | rnum (q : ℚ)
  | rstrNum (q : ℚ)
  | rstrBad
deriving DecidableEq, Repr

inductive PErr
  | missingId
  | missingLatLng (id : String)
  | badNumericString (key : String)
deriving DecidableEq, Repr

/-- Python `int()` truncation toward zero on a float. -/
def qTrunc (q : ℚ) : ℤ := if 0 ≤ q then ⌊q⌋ else ⌈q⌉

/-- Embeds `_safe_get_float` (locations.py lines 96-109). -/
def _safe_get_float (key : String) : Raw → Except PErr (Option ℚ)
  | .rnone => .ok none
  | .rnum q => .ok (some q)
  | .rstrNum q => .ok (some q)
  | .rstrBad => .error (.badNumericString key)

/-- Embeds `_safe_get_int` (locations.py lines 112-126): ints pass through, floats
and numeric strings are truncated via `int(float(v))`. -/
def _safe_get_int (key : String) : Raw → Except PErr (Option ℤ)
  | .rnone => .ok none
  | .rnum q => .ok (some (qTrunc q))
  | .rstrNum q => .ok (some (qTrunc q))
  | .rstrBad => .error (.badNumericString key)

/-- Python `x or y` on optional strings: empty string is falsy. -/
def pyOrStr (a b : Option String) : Option String :=
  match a with
  | some s => if s = "" then b else some s
  | none => b

/-- Python `x or 0` on an optional integer (both `None` and `0` become 0). -/
def pyOrZero : Option ℤ → ℤ
  | none => 0
  | some n => n

structure RawLoc where
  name : Option String := none
  region : Option String := none
  lat : Raw := .rnone
  lng : Raw := .rnone
  timezone_offset : Raw := .rnone
deriving DecidableEq, Repr

structure RawStopExp where
  duration_seconds : Raw := .rnone
  camera_zoom : Raw := .rnone
  weather_condition : Option String := none
  presents_delivered_at_stop : Raw := .rnone
deriving DecidableEq, Repr

structure RawSchedule where
  arrival_utc : Option String := none
  departure_utc : Option String := none
  local_arrival_time : Option String := none
  time_window_status : Option String := none
deriving DecidableEq, Repr

structure RawTransit where
  description : Option String := none
  duration_seconds : Raw := .rnone
  distance_km : Raw := .rnone
  speed_curve : Option String := none
  speed_kmh : Raw := .rnone
  camera_zoom : Raw := .rnone
deriving DecidableEq, Repr

/-- One raw nested-dialect node entry.  `none` sub-objects model the
`entry.get(key, {}) or {}` defaults (absent / None / empty). -/
structure RawEntry where
  id : Option String := none
  type : Option String := none
  comment : Option String := none
  location : Option RawLoc := none
  stop_experience : Option RawStopExp := none
  schedule : Option RawSchedule := none
  transit_to_here : Option RawTransit := none
  notes : Option String := none
  fun_facts : Option String := none
  priority : Option ℤ := none
deriving DecidableEq, Repr

structure ParsedLoc where
  name : Option String
  region : Option String
  lat : ℚ
  lng : ℚ
  timezone_offset : Option ℚ
deriving DecidableEq, Repr

structure ParsedStopExp where
  duration_seconds : ℤ
  camera_zoom : Option ℤ
  weather_condition : Option String
  presents_delivered_at_stop : ℤ
deriving DecidableEq, Repr

structure ParsedTransit where
  description : Option String
  duration_seconds : Option ℤ
  distance_km : Option ℚ
  speed_curve : Option String
  speed_kmh : Option ℚ
  camera_zoom : Option ℤ
deriving DecidableEq, Repr

/-- The normalized node dict produced by `_parse_location_entry`. -/
structure ParsedNode where
  id : String
  type : Option String
  comment : Option String
  location : ParsedLoc
  stop_experience : ParsedStopExp
  schedule : RawSchedule
  transit_to_here : Option ParsedTransit
  notes : Option String
  priority : Option ℤ
deriving DecidableEq, Repr

/-- Embeds `_parse_location_entry` (locations.py lines 139-205). -/
def _parse_location_entry (entry : RawEntry) : Except PErr ParsedNode := do
  let nodeId ← match entry.id with
    | none => Except.error PErr.missingId
    | some s => if s = "" then Except.error PErr.missingId else Except.ok s
  let loc := entry.location.getD {}
  let latO ← _safe_get_float "lat" loc.lat
  let lngO ← _safe_get_float "lng" loc.lng
  let lat ← match latO with
    | none => Except.error (PErr.missingLatLng nodeId)
    | some v => Except.ok v
  let lng ← match lngO with
    | none => Except.error (PErr.missingLatLng nodeId)
    | some v => Except.ok v
  let tzO ← _safe_get_float "timezone_offset" loc.timezone_offset
  let stop := entry.stop_experience.getD {}
  let sched := entry.schedule.getD {}
  let transitO ← match entry.transit_to_here with
    | none => Except.ok none
    | some tr => do
        let tds ← _safe_get_int "duration_seconds" tr.duration_seconds
        let tdk ← _safe_get_float "distance_km" tr.distance_km
        let tsk ← _safe_get_float "speed_kmh" tr.speed_kmh
        let tcz ← _safe_get_int "camera_zoom" tr.camera_zoom
        Except.ok (some { description := tr.description
                          duration_seconds := tds
                          distance_km := tdk
                          speed_curve := tr.speed_curve
                          speed_kmh := tsk
                          camera_zoom := tcz : ParsedTransit })
  let sds ← _safe_get_int "duration_seconds" stop.duration_seconds
  let scz ← _safe_get_int "camera_zoom" stop.camera_zoom
  let spd ← _safe_get_int "presents_delivered_at_stop" stop.presents_delivered_at_stop
  Except.ok
    { id := nodeId
      type := entry.type
      comment := entry.comment
      location :=
        { name := loc.name
          region := loc.region
          lat := lat
          lng := lng
          timezone_offset := tzO }
      stop_experience :=
        { duration_seconds := pyOrZero sds
          camera_zoom := scz
          weather_condition := stop.weather_condition
          presents_delivered_at_stop := pyOrZero spd }
      schedule := sched
      transit_to_here := transitO
      notes := pyOrStr entry.notes entry.fun_facts
      priority := entry.priority }

/-- Embeds `_parse_and_normalize_nodes` (locations.py lines 868-889): parse each
node, skipping (with a logged warning) any that raises.  The legacy
flat-dialect pre-conversion (`_convert_flat_to_node_equiv`) happens before
this representation; entries here are nested-dialect node dicts. -/
def _parse_and_normalize_nodes (nodes : List RawEntry) : List ParsedNode :=
  nodes.filterMap fun n => (_parse_location_entry n).toOption

/-- Embeds `_parsed_nodes_to_locations` (locations.py lines 917-955): build legacy
`Location` objects from parsed node dicts; a missing `timezone_offset`
defaults to 0.0; nodes whose `Location` construction raises are skipped. -/
def _parsed_nodes_to_locations (parsed_nodes : List ParsedNode) : List Location :=
  parsed_nodes.filterMap fun p =>
    let stop_duration_minutes : Option ℤ :=
      some (qTrunc ((p.stop_experience.duration_seconds : ℚ) / 60))
    let utc_off : ℚ := p.location.timezone_offset.getD 0
    (mkLocation
      { name := pyOrStr p.location.name (some p.id)
        region := p.location.region
        latitude := some p.location.lat
        longitude := some p.location.lng
        utc_offset := some utc_off
        arrival_time := p.schedule.arrival_utc
        departure_time := p.schedule.departure_utc
        stop_duration := stop_duration_minutes
        is_stop := some true
        priority := p.priority
        notes := p.notes
        fun_facts := p.notes
        country := p.location.region }).toOption

/-- The two output shapes of `load_santa_route_from_json`. -/
inductive LoadResult
  | locations (locs : List Location)
  | nodes (ns : List ParsedNode)
deriving DecidableEq, Repr

/-- The strip loop of `load_santa_route_from_json` (lines 242-244): pop the
legacy top-level `notes` and `priority` fields. -/
def stripLegacyTopLevel (p : ParsedNode) : ParsedNode :=
  { p with notes := none, priority := none }

/-- Embeds `load_santa_route_from_json` (locations.py lines 208-245), starting from
the extracted node list.  `sourceGiven = false` models the default
file-backed call (`source is None`), `sourceGiven = true` an explicit
source (file path, JSON string or in-memory object). -/
def load_santa_route_from_json (sourceGiven : Bool) (nodes : List RawEntry) : LoadResult :=
  let parsed_nodes := _parse_and_normalize_nodes nodes
  if sourceGiven then .nodes (parsed_nodes.map stripLegacyTopLevel)
  else .locations (_parsed_nodes_to_locations parsed_nodes)

/-- A successful `Location` construction synchronizes the legacy flat
fields with the canonical ones (`_location_sync_legacy_fields_and_notes`). -/
lemma mkLocation_sync (a : LocationArgs) (l : Location) (h : mkLocation a = .ok l) :
    l.latitude = l.lat ∧ l.longitude = l.lng ∧ l.utc_offset = l.timezone_offset := by
  unfold mkLocation at h
  dsimp only at h
  rcases hv : _location_validate_and_normalize_coords
      (_location_coerce_legacy_fields a).lat (_location_coerce_legacy_fields a).lng
      (_location_coerce_legacy_fields a).timezone_offset with e | v
  · rw [hv] at h
    cases h
  · rw [hv] at h
    rcases hp : _location_validate_priority (_location_coerce_legacy_fields a).priority
        with e | u
    · rw [hp] at h
      cases h
    · rw [hp] at h
      obtain ⟨v1, v2, v3⟩ := v
      simp only [Except.ok.injEq] at h
      rw [← h]
      exact ⟨rfl, rfl, rfl⟩

/-- C6: the two output shapes of `load_santa_route_from_json`: the default
(no-source, file-backed) call yields legacy `Location` records with flat
named fields (`latitude`/`longitude`/`utc_offset` populated), an explicit
(programmatic) source yields normalized node dicts with the top-level
`notes` and `priority` stripped, and on data with at least one parseable
node the two shapes always differ. -/
theorem C6_two_output_shapes (nodes : List RawEntry)
    (hne : _parse_and_normalize_nodes nodes ≠ []) :
    (∃ ls, load_santa_route_from_json false nodes = .locations ls ∧
      ∀ l ∈ ls, l.latitude = l.lat ∧ l.longitude = l.lng ∧
        l.utc_offset = l.timezone_offset) ∧
    (∃ ns, load_santa_route_from_json true nodes = .nodes ns ∧ ns ≠ [] ∧
      ∀ p ∈ ns, p.notes = none ∧ p.priority = none) ∧
    load_santa_route_from_json false nodes ≠ load_santa_route_from_json true nodes := by
  refine ⟨⟨_, rfl, ?_⟩, ⟨_, rfl, ?_, ?_⟩, ?_⟩
  · intro l hl
    rw [_parsed_nodes_to_locations, List.mem_filterMap] at hl
    obtain ⟨p, _, hp⟩ := hl
    dsimp only at hp
    rcases hmk : mkLocation
        { name := pyOrStr p.location.name (some p.id)
          region := p.location.region
          latitude := some p.location.lat
          longitude := some p.location.lng
          utc_offset := some (p.location.timezone_offset.getD 0)
          arrival_time := p.schedule.arrival_utc
          departure_time := p.schedule.departure_utc
          stop_duration := some (qTrunc ((p.stop_experience.duration_seconds : ℚ) / 60))
          is_stop := some true
          priority := p.priority
          notes := p.notes
          fun_facts := p.notes
          country := p.location.region } with e | l2
    · rw [hmk] at hp
      simp [Except.toOption] at hp
    · rw [hmk] at hp
      simp only [Except.toOption, Option.some_inj] at hp
      subst hp
      exact mkLocation_sync _ _ hmk
  · simpa using hne
  · intro p hp
    rw [List.mem_map] at hp
    obtain ⟨q, _, hq⟩ := hp
    rw [← hq]
    exact ⟨rfl, rfl⟩
  · simp [load_santa_route_from_json]

def demoEntry : RawEntry :=
  { id := some "n1"
    location := some
      { name := some "A", lat := .rnum 10, lng := .rnum 20, timezone_offset := .rnum 0 }
    notes := some "hello"
    priority := some 2 }

/-- Witness for C6 on a one-node route. -/
theorem C6_two_output_shapes_witness :
    load_santa_route_from_json false [demoEntry] ≠
      load_santa_route_from_json true [demoEntry] :=
  (C6_two_output_shapes [demoEntry] (by decide)).2.2

/-- The failing input of C7: a node with valid required coordinates and a
non-numeric `stop_experience.duration_seconds` string. -/
def badDurationEntry : RawEntry :=
  { id := some "stop2"
    location := some
      { name := some "A", lat := .rnum 5, lng := .rnum 6, timezone_offset := .rnum 0 }
    stop_experience := some { duration_seconds := .rstrBad } }

/-- C7 (code bug): `_parse_location_entry` calls the raising `_safe_get_int`
on `stop_experience.duration_seconds`, so a non-numeric optional duration
aborts the record mid-parse and the batch loop of
`_parse_and_normalize_nodes` discards the whole record — instead of
dropping only the offending field and keeping the record as the spec (and
the numeric-safe helper `_second_to_minutes`, unused on this path) intend. -/
theorem C7_bad_optional_field_discards_record :
    _parse_location_entry badDurationEntry =
      .error (.badNumericString "duration_seconds") ∧
    _parse_and_normalize_nodes [badDurationEntry] = [] := by
  exact ⟨rfl, rfl⟩

/-- C10: in the default (no source) load, a parsed node whose location has
no `timezone_offset` is neither skipped nor reported: the `Location` is
constructed with `utc_offset = 0.0`, so the caller observes offset zero. -/
theorem C10_missing_tz_defaults_to_zero (e : RawEntry) (p : ParsedNode)
    (hp : _parse_location_entry e = .ok p)
    (htz : p.location.timezone_offset = none)
    (hlat1 : -90 ≤ p.location.lat) (hlat2 : p.location.lat ≤ 90)
    (hpr : p.priority = none ∨ ∃ n, p.priority = some n ∧ 1 ≤ n ∧ n ≤ 3) :
    ∃ l, load_santa_route_from_json false [e] = .locations [l] ∧
      l.utc_offset = 0 ∧ l.timezone_offset = 0 := by
  have hparsed : _parse_and_normalize_nodes [e] = [p] := by
    simp [_parse_and_normalize_nodes, hp, Except.toOption]
  have hmk : mkLocation
      { name := pyOrStr p.location.name (some p.id)
        region := p.location.region
        latitude := some p.location.lat
        longitude := some p.location.lng
        utc_offset := some (p.location.timezone_offset.getD 0)
        arrival_time := p.schedule.arrival_utc
        departure_time := p.schedule.departure_utc
        stop_duration := some (qTrunc ((p.stop_experience.duration_seconds : ℚ) / 60))
        is_stop := some true
        priority := p.priority
        notes := p.notes
        fun_facts := p.notes
        country := p.location.region } =
      .ok { name := pyOrStr p.location.name (some p.id)
            region := p.location.region
            lat := p.location.lat
            lng := pymod (p.location.lng + 180) 360 - 180
            timezone_offset := 0
            latitude := p.location.lat
            longitude := pymod (p.location.lng + 180) 360 - 180
            utc_offset := 0
            arrival_time := p.schedule.arrival_utc
            departure_time := p.schedule.departure_utc
            stop_duration := some (qTrunc ((p.stop_experience.duration_seconds : ℚ) / 60))
            is_stop := some true
            priority := p.priority
            notes := match p.notes with
              | some s => some s
              | none => p.notes
            fun_facts := p.notes
            country := match p.location.region with
              | some c => some c
              | none => p.location.region } := by
    rw [htz]
    simp only [mkLocation, _location_coerce_legacy_fields, Option.getD,
      _location_validate_and_normalize_coords]
    rw [if_neg (not_not_intro ⟨hlat1, hlat2⟩), if_neg (not_not_intro (by norm_num))]
    rcases hpr with hnone | ⟨n, hn, h1, h3⟩
    · rw [hnone]
      rfl
    · rw [hn]
      simp only [_location_validate_priority]
      rw [if_pos ⟨h1, h3⟩]
  refine ⟨{ name := pyOrStr p.location.name (some p.id)
            region := p.location.region
            lat := p.location.lat
            lng := pymod (p.location.lng + 180) 360 - 180
            timezone_offset := 0
            latitude := p.location.lat
            longitude := pymod (p.location.lng + 180) 360 - 180
            utc_offset := 0
            arrival_time := p.schedule.arrival_utc
            departure_time := p.schedule.departure_utc
            stop_duration := some (qTrunc ((p.stop_experience.duration_seconds : ℚ) / 60))
            is_stop := some true
            priority := p.priority
            notes := match p.notes with
              | some s => some s
              | none => p.notes
            fun_facts := p.notes
            country := match p.location.region with
              | some c => some c
              | none => p.location.region }, ?_, rfl, rfl⟩
  simp only [load_santa_route_from_json, hparsed]
  rw [if_neg (by simp)]
  simp only [_parsed_nodes_to_locations, List.filterMap_cons]
  rw [hmk]
  simp [Except.toOption, List.filterMap]

/-- A node entry whose location carries no `timezone_offset`. -/
def demoNoTz : RawEntry :=
  { id := some "n0"
    location := some { name := some "A", lat := .rnum 10, lng := .rnum 20 } }

def demoNoTzParsed : ParsedNode :=
  { id := "n0"
    type := none
    comment := none
    location := { name := some "A", region := none, lat := 10, lng := 20,
                  timezone_offset := none }
    stop_experience := { duration_seconds := 0, camera_zoom := none,
                         weather_condition := none, presents_delivered_at_stop := 0 }
    schedule := {}
    transit_to_here := none
    notes := none
    priority := none }

/-- Witness for C10 on a concrete node without a timezone offset. -/
theorem C10_missing_tz_defaults_to_zero_witness :
    ∃ l, load_santa_route_from_json false [demoNoTz] = .locations [l] ∧
      l.utc_offset = 0 ∧ l.timezone_offset = 0 :=
  C10_missing_tz_defaults_to_zero demoNoTz demoNoTzParsed rfl rfl
    (by norm_num [demoNoTzParsed]) (by norm_num [demoNoTzParsed]) (Or.inl rfl)

/-! ## Embedding of `app.py`: the simulation engine's filter-and-sort. -/

/-- A location as consumed by the simulation sort (post-normalization, so
`utc_offset` is always numeric). -/
structure AppLoc where
  name : String
  utc_offset : ℚ
  priority : Option ℤ := none
deriving DecidableEq, Repr

/-- The sort key of `_build_simulated_from_locations` (app.py line 969):
`(-loc.utc_offset, loc.priority or 2)`; Python `or` also maps a stored 0 to
the default 2. -/
def simSortKey (loc : AppLoc) : ℚ × ℤ :=
  (-loc.utc_offset,
    match loc.priority with
    | none => 2
    | some p => if p = 0 then 2 else p)

/-- Lexicographic comparison of sort keys (Python tuple ordering). -/
def simKeyLE (a b : AppLoc) : Prop :=
  (simSortKey a).1 < (simSortKey b).1 ∨
    ((simSortKey a).1 = (simSortKey b).1 ∧ (simSortKey a).2 ≤ (simSortKey b).2)

instance : DecidableRel simKeyLE := fun a b => by
  unfold simKeyLE
  infer_instance

instance : IsTotal AppLoc simKeyLE := ⟨by
  intro a b
  unfold simKeyLE
  rcases lt_trichotomy (simSortKey a).1 (simSortKey b).1 with h | h | h
  · exact Or.inl (Or.inl h)
  · rcases le_total (simSortKey a).2 (simSortKey b).2 with h2 | h2
    · exact Or.inl (Or.inr ⟨h, h2⟩)
    · exact Or.inr (Or.inr ⟨h.symm, h2⟩)
  · exact Or.inr (Or.inl h)⟩

instance : IsTrans AppLoc simKeyLE := ⟨by
  intro a b c hab hbc
  unfold simKeyLE at *
  rcases hab with h1 | ⟨h1, h1b⟩ <;> rcases hbc with h2 | ⟨h2, h2b⟩
  · exact Or.inl (lt_trans h1 h2)
  · exact Or.inl (h2 ▸ h1)
  · exact Or.inl (h1 ▸ h2)
  · exact Or.inr ⟨h1.trans h2, le_trans h1b h2b⟩⟩

/-- Embeds `_filter_locations_by_ids` (app.py lines 981-1003), success path: keep
`all_locations[idx]` for in-range indices, silently dropping the rest.
(A non-list filter argument is a hard 400 error in the source and is
outside this success-path model.) -/
def _filter_locations_by_ids (all_locations : List AppLoc) :
    Option (List ℤ) → List AppLoc
  | none => all_locations
  | some ids => ids.filterMap fun idx =>
      if h : 0 ≤ idx ∧ idx.toNat < all_locations.length then
        some (all_locations.get ⟨idx.toNat, h.2⟩)
      else none

/-- The filter-and-sort core of `_build_simulated_from_locations` (app.py
lines 956-978).  Python's `sorted` is stable; a stable sort by a total
preorder is unique, modelled here by insertion sort.  The per-item route
dict construction and the summary are presentation and not modelled. -/
def _build_simulated_from_locations (all_locations : List AppLoc)
    (location_ids : Option (List ℤ)) : List AppLoc :=
  List.insertionSort simKeyLE (_filter_locations_by_ids all_locations location_ids)

/-- C8: the simulation engine sorts the selected stops by
`(-utc_offset, priority or 2)`: the output is a permutation of the
selection (no stop's stored fields change), ordered east-to-west by
descending `utc_offset`, with lower effective priority first inside a zone;
a missing priority counts as 2 in the key only; offsets {+9, 0, -5} come
out as [+9, 0, -5] and equal-offset priorities {2, 1} as [1, 2]. -/
theorem C8_simulation_sort
    (all_locations : List AppLoc) (location_ids : Option (List ℤ)) :
    List.Sorted simKeyLE (_build_simulated_from_locations all_locations location_ids) ∧
    (_build_simulated_from_locations all_locations location_ids).Perm
      (_filter_locations_by_ids all_locations location_ids) ∧
    (∀ i j a b,
      (_build_simulated_from_locations all_locations location_ids).get? i = some a →
      (_build_simulated_from_locations all_locations location_ids).get? j = some b →
      i < j → b.utc_offset ≤ a.utc_offset) ∧
    (∀ i j a b,
      (_build_simulated_from_locations all_locations location_ids).get? i = some a →
      (_build_simulated_from_locations all_locations location_ids).get? j = some b →
      i < j → a.utc_offset = b.utc_offset → (simSortKey a).2 ≤ (simSortKey b).2) ∧
    (∀ l : AppLoc, l.priority = none → (simSortKey l).2 = 2) ∧
    ((_build_simulated_from_locations
      [{ name := "london", utc_offset := 0 }, { name := "ny", utc_offset := -5 },
       { name := "tokyo", utc_offset := 9 }] none).map AppLoc.name =
        ["tokyo", "london", "ny"]) ∧
    ((_build_simulated_from_locations
      [{ name := "p2", utc_offset := 3, priority := some 2 },
       { name := "p1", utc_offset := 3, priority := some 1 }] none).map AppLoc.name =
        ["p1", "p2"]) := by
  have hsorted : List.Sorted simKeyLE
      (_build_simulated_from_locations all_locations location_ids) :=
    List.sorted_insertionSort simKeyLE _
  have hpairs : ∀ i j a b,
      (_build_simulated_from_locations all_locations location_ids).get? i = some a →
      (_build_simulated_from_locations all_locations location_ids).get? j = some b →
      i < j → simKeyLE a b := by
    intro i j a b ha hb hij
    obtain ⟨hi, hgi⟩ := List.get?_eq_some.mp ha
    obtain ⟨hj, hgj⟩ := List.get?_eq_some.mp hb
    have := List.Sorted.rel_get_of_lt hsorted (show (⟨i, hi⟩ : Fin _) < ⟨j, hj⟩ from hij)
    rw [hgi, hgj] at this
    exact this
  refine ⟨hsorted, List.perm_insertionSort simKeyLE _, ?_, ?_, ?_, ?_, ?_⟩
  · intro i j a b ha hb hij
    rcases hpairs i j a b ha hb hij with h | ⟨h, _⟩
    · have : -a.utc_offset < -b.utc_offset := h
      linarith
    · have : -a.utc_offset = -b.utc_offset := h
      linarith
  · intro i j a b ha hb hij heq
    rcases hpairs i j a b ha hb hij with h | ⟨_, h2⟩
    · exfalso
      have : -a.utc_offset < -b.utc_offset := h
      rw [heq] at this
      exact lt_irrefl _ this
    · exact h2
  · intro l hl
    simp [simSortKey, hl]
  · decide
  · decide

/-- Witness for C8: the descending-offset clause applied to a concrete
three-stop selection. -/
theorem C8_simulation_sort_witness :
    ({ name := "london", utc_offset := 0, priority := none : AppLoc }).utc_offset ≤
      ({ name := "tokyo", utc_offset := 9, priority := none : AppLoc }).utc_offset := by
  have h := C8_simulation_sort
    [{ name := "london", utc_offset := 0 }, { name := "ny", utc_offset := -5 },
     { name := "tokyo", utc_offset := 9 }] none
  exact h.2.2.1 0 1 { name := "tokyo", utc_offset := 9 }
    { name := "london", utc_offset := 0 } (by decide) (by decide) (by decide)

/-! ## Embedding of `validate_locations` (locations.py lines 550-742).

Records are modelled after `_extract_loc_info`: a display name and the
three numeric fields.  `none` in `lat`/`lng` covers both an absent and a
non-convertible value (`float()` raising `TypeError`/`ValueError`), which
the source reports with the same conversion error; `none` in `tz` models
an absent offset, which the source skips silently.  Error and warning
strings are modelled as structured messages carrying exactly the data the
source interpolates into them. -/

structure VRec where
  name : Option String := none
  lat : Option ℚ := none
  lng : Option ℚ := none
  tz : Option ℚ := none
deriving DecidableEq, Repr

inductive VMsg
  | dupName (name : String) (firstIdx secondIdx : ℕ)
  | invalidLat (name : String) (idx : ℕ)
  | invalidLng (name : String) (idx : ℕ)
  | latRange (name : String) (idx : ℕ) (v : ℚ)
  | lngRange (name : String) (idx : ℕ) (v : ℚ)
  | tzRange (name : String) (idx : ℕ) (v : ℚ)
  | closeCoords (name : String) (idx : ℕ) (otherName : Option String) (otherIdx : ℕ)
  | unusualTz (name : String) (v : ℚ)
deriving DecidableEq, Repr

def VMsg.isCloseCoords : VMsg → Bool
  | .closeCoords _ _ _ _ => true
  | _ => false

/-- Models `name = info.get("name") or f"(index {idx})"` (empty string is falsy). -/
def nameKey (idx : ℕ) (r : VRec) : String :=
  match r.name with
  | some s => if s = "" then "(index " ++ toString idx ++ ")" else s
  | none => "(index " ++ toString idx ++ ")"

/-- Dictionary lookup on an association list. -/
def vlookup {α β : Type} [DecidableEq α] (k : α) : List (α × β) → Option β
  | [] => none
  | (k2, v) :: rest => if k2 = k then some v else vlookup k rest

/-- Python `round()` to an integer: round-half-to-even. -/
def pyRound (q : ℚ) : ℤ :=
  if q - ⌊q⌋ < 1 / 2 then ⌊q⌋
  else if 1 / 2 < q - ⌊q⌋ then ⌊q⌋ + 1
  else if 2 ∣ ⌊q⌋ then ⌊q⌋ else ⌊q⌋ + 1

/-- Embeds `round(x, 4)`. -/
def round4 (q : ℚ) : ℚ := (pyRound (q * 10000) : ℤ) / 10000

/-- Embeds `math.isclose` with default `rel_tol=1e-9` and `abs_tol=1e-9`. -/
def iscloseQ (x y : ℚ) : Bool :=
  decide (|x - y| ≤ max ((1 / 1000000000) * max |x| |y|) (1 / 1000000000))

/-- The unusual-offset test of `_range_and_tz_checks`: the fractional part
`abs(tz % 1)` is close to none of {0, 0.25, 0.5, 0.75}. -/
def tzUnusual (tz : ℚ) : Bool :=
  let frac := |pymod tz 1|
  !(iscloseQ frac 0 || iscloseQ frac (1 / 4) || iscloseQ frac (1 / 2) ||
    iscloseQ frac (3 / 4))

/-- The `other_name` recovery inside `_check_duplicate_coords`. -/
def otherNameOf (locations : List VRec) (j : ℕ) : Option String :=
  match locations.get? j with
  | some r =>
    match r.name with
    | some s => if s = "" then none else some s
    | none => none
  | none => none

/-- The duplicate-name check of the main loop (lines 573-580). -/
def dupNamePart (idx : ℕ) (nk : String) (sn : List (String × ℕ)) :
    List VMsg × List (String × ℕ) :=
  match vlookup nk sn with
  | some j => ([.dupName nk j idx], sn)
  | none => ([], (nk, idx) :: sn)

/-- Embeds `_convert_to_numeric` (lines 655-675): conversion failures for lat/lng;
an absent tz is skipped. -/
def convErrs (idx : ℕ) (nk : String) (r : VRec) : List VMsg :=
  (match r.lat with
    | some _ => []
    | none => [.invalidLat nk idx]) ++
  (match r.lng with
    | some _ => []
    | none => [.invalidLng nk idx])

/-- Embeds `_check_duplicate_coords` (lines 678-708). -/
def coordPart (locations : List VRec) (idx : ℕ) (nk : String) (r : VRec)
    (sc : List ((ℚ × ℚ) × ℕ)) : List VMsg × List ((ℚ × ℚ) × ℕ) :=
  match r.lat, r.lng with
  | some la, some lo =>
    match vlookup (round4 la, round4 lo) sc with
    | some j => ([.closeCoords nk idx (otherNameOf locations j) j], sc)
    | none => ([], ((round4 la, round4 lo), idx) :: sc)
  | _, _ => ([], sc)

/-- The range checks of `_range_and_tz_checks` (lines 723-729). -/
def rangeErrs (idx : ℕ) (nk : String) (r : VRec) : List VMsg :=
  (match r.lat with
    | some la => if ¬(-90 ≤ la ∧ la ≤ 90) then [.latRange nk idx la] else []
    | none => []) ++
  (match r.lng with
    | some lo => if ¬(-180 ≤ lo ∧ lo ≤ 180) then [.lngRange nk idx lo] else []
    | none => []) ++
  (match r.tz with
    | some tz => if ¬(-12 ≤ tz ∧ tz ≤ 14) then [.tzRange nk idx tz] else []
    | none => [])

/-- The unusual-offset warning of `_range_and_tz_checks` (lines 730-741). -/
def tzWarnings (nk : String) (r : VRec) : List VMsg :=
  match r.tz with
  | some tz => if tzUnusual tz then [.unusualTz nk tz] else []
  | none => []

/-- One iteration of the `validate_locations` main loop. -/
def processOne (locations : List VRec) (idx : ℕ) (r : VRec)
    (sn : List (String × ℕ)) (sc : List ((ℚ × ℚ) × ℕ)) :
    List VMsg × List VMsg × List (String × ℕ) × List ((ℚ × ℚ) × ℕ) :=
  let nk := nameKey idx r
  let dn := dupNamePart idx nk sn
  let cp := coordPart locations idx nk r sc
  (dn.1 ++ convErrs idx nk r ++ rangeErrs idx nk r,
   cp.1 ++ tzWarnings nk r, dn.2, cp.2)

/-- The `validate_locations` main loop over the remaining suffix, carrying
the `seen_names` / `seen_coords` dictionaries. -/
def validateGo (locations : List VRec) :
    ℕ → List VRec → List (String × ℕ) → List ((ℚ × ℚ) × ℕ) →
      List VMsg × List VMsg
  | _, [], _, _ => ([], [])
  | idx, r :: rest, sn, sc =>
    let h := processOne locations idx r sn sc
    let t := validateGo locations (idx + 1) rest h.2.2.1 h.2.2.2
    (h.1 ++ t.1, h.2.1 ++ t.2)

structure VReport where
  valid : Bool
  total_locations : ℕ
  errors : List VMsg
  warnings : List VMsg
deriving DecidableEq, Repr

/-- Embeds `validate_locations` (locations.py lines 550-603). -/
def validate_locations (locations : List VRec) : VReport :=
  { valid := (validateGo locations 0 locations [] []).1.isEmpty
    total_locations := locations.length
    errors := (validateGo locations 0 locations [] []).1
    warnings := (validateGo locations 0 locations [] []).2 }

lemma vlookup_of_mem {α β : Type} [DecidableEq α] {k : α} {v : β} :
    ∀ {l : List (α × β)}, (k, v) ∈ l → (l.map Prod.fst).Nodup →
      vlookup k l = some v := by
  intro l
  induction l with
  | nil => intro h; simp at h
  | cons p rest ih =>
    intro hmem hnd
    obtain ⟨k2, v2⟩ := p
    rw [List.mem_cons] at hmem
    simp only [List.map_cons, List.nodup_cons] at hnd
    rcases hmem with heq | hmem
    · injection heq with h1 h2
      subst h1
      subst h2
      simp [vlookup]
    · have hk : k2 ≠ k := by
        rintro rfl
        exact hnd.1 (List.mem_map.mpr ⟨(k2, v), hmem, rfl⟩)
      simp only [vlookup, if_neg hk]
      exact ih hmem hnd.2

lemma vlookup_eq_none_iff {α β : Type} [DecidableEq α] {k : α} :
    ∀ {l : List (α × β)}, vlookup k l = none ↔ k ∉ l.map Prod.fst := by
  intro l
  induction l with
  | nil => simp [vlookup]
  | cons p rest ih =>
    obtain ⟨k2, v2⟩ := p
    by_cases h : k2 = k
    · subst h
      simp [vlookup]
    · simp only [vlookup, if_neg h, List.map_cons, List.mem_cons, ih]
      constructor
      · rintro hk (rfl | hmem)
        · exact h rfl
        · exact hk hmem
      · intro hk hmem
        exact hk (Or.inr hmem)

lemma validateGo_cons_errs (F : List VRec) (idx0 : ℕ) (r : VRec) (rest : List VRec)
    (sn : List (String × ℕ)) (sc : List ((ℚ × ℚ) × ℕ)) :
    (validateGo F idx0 (r :: rest) sn sc).1 =
      (processOne F idx0 r sn sc).1 ++
        (validateGo F (idx0 + 1) rest (processOne F idx0 r sn sc).2.2.1
          (processOne F idx0 r sn sc).2.2.2).1 := rfl

lemma validateGo_cons_warns (F : List VRec) (idx0 : ℕ) (r : VRec) (rest : List VRec)
    (sn : List (String × ℕ)) (sc : List ((ℚ × ℚ) × ℕ)) :
    (validateGo F idx0 (r :: rest) sn sc).2 =
      (processOne F idx0 r sn sc).2.1 ++
        (validateGo F (idx0 + 1) rest (processOne F idx0 r sn sc).2.2.1
          (processOne F idx0 r sn sc).2.2.2).2 := rfl

lemma processOne_errs (F : List VRec) (idx : ℕ) (r : VRec) (sn : List (String × ℕ))
    (sc : List ((ℚ × ℚ) × ℕ)) :
    (processOne F idx r sn sc).1 =
      (dupNamePart idx (nameKey idx r) sn).1 ++ convErrs idx (nameKey idx r) r ++
        rangeErrs idx (nameKey idx r) r := rfl

lemma processOne_warns (F : List VRec) (idx : ℕ) (r : VRec) (sn : List (String × ℕ))
    (sc : List ((ℚ × ℚ) × ℕ)) :
    (processOne F idx r sn sc).2.1 =
      (coordPart F idx (nameKey idx r) r sc).1 ++ tzWarnings (nameKey idx r) r := rfl

lemma processOne_sn (F : List VRec) (idx : ℕ) (r : VRec) (sn : List (String × ℕ))
    (sc : List ((ℚ × ℚ) × ℕ)) :
    (processOne F idx r sn sc).2.2.1 = (dupNamePart idx (nameKey idx r) sn).2 := rfl

lemma processOne_sc (F : List VRec) (idx : ℕ) (r : VRec) (sn : List (String × ℕ))
    (sc : List ((ℚ × ℚ) × ℕ)) :
    (processOne F idx r sn sc).2.2.2 = (coordPart F idx (nameKey idx r) r sc).2 := rfl

/-- Once the first occurrence of name `n` is registered in `seen_names`
(at index `i`), every later record with that display name emits a duplicate
error naming both indices. -/
lemma validateGo_dup_found (F : List VRec) (n : String) (i : ℕ) :
    ∀ (sfx : List VRec) (idx0 : ℕ) (sn : List (String × ℕ)) (sc : List ((ℚ × ℚ) × ℕ))
      (j : ℕ) (rj : VRec),
      (n, i) ∈ sn → (sn.map Prod.fst).Nodup →
      sfx.get? j = some rj → nameKey (idx0 + j) rj = n →
      VMsg.dupName n i (idx0 + j) ∈ (validateGo F idx0 sfx sn sc).1 := by
  intro sfx
  induction sfx with
  | nil => intro idx0 sn sc j rj _ _ hg _; simp [List.get?] at hg
  | cons r rest ih =>
    intro idx0 sn sc j rj hmem hnd hg hk
    cases j with
    | zero =>
      rw [Nat.add_zero] at hk ⊢
      rw [List.get?_cons_zero, Option.some_inj] at hg
      subst hg
      rw [validateGo_cons_errs]
      apply List.mem_append_left
      rw [processOne_errs]
      apply List.mem_append_left
      apply List.mem_append_left
      rw [hk]
      simp only [dupNamePart, vlookup_of_mem hmem hnd]
      exact List.mem_singleton.mpr rfl
    | succ m =>
      rw [List.get?_cons_succ] at hg
      have hshift : idx0 + (m + 1) = idx0 + 1 + m := by omega
      rw [hshift] at hk ⊢
      rw [validateGo_cons_errs]
      apply List.mem_append_right
      rw [processOne_sn]
      rcases hl : vlookup (nameKey idx0 r) sn with _ | j2
      · simp only [dupNamePart, hl]
        have hmem2 : (n, i) ∈ (nameKey idx0 r, idx0) :: sn := List.mem_cons_of_mem _ hmem
        have hnd2 : (((nameKey idx0 r, idx0) :: sn).map Prod.fst).Nodup := by
          rw [List.map_cons, List.nodup_cons]
          exact ⟨vlookup_eq_none_iff.mp hl, hnd⟩
        exact ih (idx0 + 1) _ _ m rj hmem2 hnd2 hg hk
      · simp only [dupNamePart, hl]
        exact ih (idx0 + 1) _ _ m rj hmem hnd hg hk

/-- A duplicate display name (the first occurrence at relative position
`j1`, a later one at `j2`) always produces the duplicate-name error naming
both absolute indices. -/
lemma validateGo_dup_main (F : List VRec) (n : String) :
    ∀ (sfx : List VRec) (idx0 : ℕ) (sn : List (String × ℕ)) (sc : List ((ℚ × ℚ) × ℕ))
      (j1 j2 : ℕ) (r1 r2 : VRec),
      j1 < j2 → sfx.get? j1 = some r1 → sfx.get? j2 = some r2 →
      nameKey (idx0 + j1) r1 = n → nameKey (idx0 + j2) r2 = n →
      (∀ k rk, k < j1 → sfx.get? k = some rk → nameKey (idx0 + k) rk ≠ n) →
      n ∉ sn.map Prod.fst → (sn.map Prod.fst).Nodup →
      VMsg.dupName n (idx0 + j1) (idx0 + j2) ∈ (validateGo F idx0 sfx sn sc).1 := by
  intro sfx
  induction sfx with
  | nil => intro idx0 sn sc j1 j2 r1 r2 _ hg1 _ _ _ _ _ _; simp [List.get?] at hg1
  | cons r rest ih =>
    intro idx0 sn sc j1 j2 r1 r2 hlt hg1 hg2 hk1 hk2 hfirst hnotin hnd
    cases j1 with
    | zero =>
      rw [Nat.add_zero] at hk1 ⊢
      rw [List.get?_cons_zero, Option.some_inj] at hg1
      subst hg1
      cases j2 with
      | zero => omega
      | succ m =>
        rw [List.get?_cons_succ] at hg2
        have hshift : idx0 + (m + 1) = idx0 + 1 + m := by omega
        rw [hshift] at hk2 ⊢
        rw [validateGo_cons_errs]
        apply List.mem_append_right
        rw [processOne_sn]
        have hl : vlookup (nameKey idx0 r) sn = none := by
          rw [vlookup_eq_none_iff, hk1]
          exact hnotin
        simp only [dupNamePart, hl]
        have hmem2 : (n, idx0) ∈ (nameKey idx0 r, idx0) :: sn := by
          rw [hk1]
          exact List.mem_cons_self _ _
        have hnd2 : (((nameKey idx0 r, idx0) :: sn).map Prod.fst).Nodup := by
          rw [List.map_cons, List.nodup_cons]
          exact ⟨vlookup_eq_none_iff.mp hl, hnd⟩
        exact validateGo_dup_found F n idx0 rest (idx0 + 1) _ _ m r2 hmem2 hnd2 hg2 hk2
    | succ m1 =>
      have hkhead : nameKey idx0 r ≠ n := by
        have h0 := hfirst 0 r (Nat.succ_pos m1) List.get?_cons_zero
        rw [Nat.add_zero] at h0
        exact h0
      cases j2 with
      | zero => omega
      | succ m2 =>
        rw [List.get?_cons_succ] at hg1 hg2
        have hshift1 : idx0 + (m1 + 1) = idx0 + 1 + m1 := by omega
        have hshift2 : idx0 + (m2 + 1) = idx0 + 1 + m2 := by omega
        rw [hshift1] at hk1 ⊢
        rw [hshift2] at hk2 ⊢
        rw [validateGo_cons_errs]
        apply List.mem_append_right
        rw [processOne_sn]
        have hfirst2 : ∀ k rk, k < m1 → rest.get? k = some rk →
            nameKey (idx0 + 1 + k) rk ≠ n := by
          intro k rk hkm hgk
          have := hfirst (k + 1) rk (by omega) (by simpa using hgk)
          rw [show idx0 + (k + 1) = idx0 + 1 + k by omega] at this
          exact this
        rcases hl : vlookup (nameKey idx0 r) sn with _ | jx
        · simp only [dupNamePart, hl]
          have hnotin2 : n ∉ ((nameKey idx0 r, idx0) :: sn).map Prod.fst := by
            rw [List.map_cons, List.mem_cons]
            rintro (hcon | hcon)
            · exact hkhead hcon.symm
            · exact hnotin hcon
          have hnd2 : (((nameKey idx0 r, idx0) :: sn).map Prod.fst).Nodup := by
            rw [List.map_cons, List.nodup_cons]
            exact ⟨vlookup_eq_none_iff.mp hl, hnd⟩
          exact ih (idx0 + 1) _ _ m1 m2 r1 r2 (by omega) hg1 hg2 hk1 hk2 hfirst2
            hnotin2 hnd2
        · simp only [dupNamePart, hl]
          exact ih (idx0 + 1) _ _ m1 m2 r1 r2 (by omega) hg1 hg2 hk1 hk2 hfirst2
            hnotin hnd

lemma coordPart_sc_cases (F : List VRec) (idx : ℕ) (nk : String) (r : VRec)
    (sc : List ((ℚ × ℚ) × ℕ)) :
    (coordPart F idx nk r sc).2 = sc ∨
    ∃ la lo, r.lat = some la ∧ r.lng = some lo ∧
      vlookup (round4 la, round4 lo) sc = none ∧
      (coordPart F idx nk r sc).2 = ((round4 la, round4 lo), idx) :: sc := by
  rcases hla : r.lat with _ | la <;> rcases hlb : r.lng with _ | lo
  · exact Or.inl (by simp [coordPart, hla, hlb])
  · exact Or.inl (by simp [coordPart, hla, hlb])
  · exact Or.inl (by simp [coordPart, hla, hlb])
  · rcases hl : vlookup (round4 la, round4 lo) sc with _ | j
    · exact Or.inr ⟨la, lo, rfl, rfl, hl, by simp [coordPart, hla, hlb, hl]⟩
    · exact Or.inl (by simp [coordPart, hla, hlb, hl])

/-- Once the first stop with a rounded coordinate `key` is registered in
`seen_coords` (at index `i`), every later stop rounding to the same key
emits a close-coordinates warning naming both indices. -/
lemma validateGo_coord_found (F : List VRec) (key : ℚ × ℚ) (i : ℕ) :
    ∀ (sfx : List VRec) (idx0 : ℕ) (sn : List (String × ℕ)) (sc : List ((ℚ × ℚ) × ℕ))
      (j : ℕ) (rj : VRec) (laj loj : ℚ),
      (key, i) ∈ sc → (sc.map Prod.fst).Nodup →
      sfx.get? j = some rj → rj.lat = some laj → rj.lng = some loj →
      (round4 laj, round4 loj) = key →
      VMsg.closeCoords (nameKey (idx0 + j) rj) (idx0 + j) (otherNameOf F i) i ∈
        (validateGo F idx0 sfx sn sc).2 := by
  intro sfx
  induction sfx with
  | nil => intro idx0 sn sc j rj laj loj _ _ hg _ _ _; simp [List.get?] at hg
  | cons r rest ih =>
    intro idx0 sn sc j rj laj loj hmem hnd hg hla hlb hkey
    cases j with
    | zero =>
      rw [Nat.add_zero] at *
      rw [List.get?_cons_zero, Option.some_inj] at hg
      subst hg
      rw [validateGo_cons_warns]
      apply List.mem_append_left
      rw [processOne_warns]
      apply List.mem_append_left
      simp only [coordPart, hla, hlb, hkey, vlookup_of_mem hmem hnd]
      exact List.mem_singleton.mpr rfl
    | succ m =>
      rw [List.get?_cons_succ] at hg
      have hshift : idx0 + (m + 1) = idx0 + 1 + m := by omega
      rw [hshift] at *
      rw [validateGo_cons_warns]
      apply List.mem_append_right
      rw [processOne_sc]
      rcases coordPart_sc_cases F idx0 (nameKey idx0 r) r sc with hcase | ⟨la, lo, _, _, hl, hcase⟩
      · rw [hcase]
        exact ih (idx0 + 1) _ _ m rj laj loj hmem hnd hg hla hlb hkey
      · rw [hcase]
        have hmem2 : (key, i) ∈ ((round4 la, round4 lo), idx0) :: sc :=
          List.mem_cons_of_mem _ hmem
        have hnd2 : ((((round4 la, round4 lo), idx0) :: sc).map Prod.fst).Nodup := by
          rw [List.map_cons, List.nodup_cons]
          exact ⟨vlookup_eq_none_iff.mp hl, hnd⟩
        exact ih (idx0 + 1) _ _ m rj laj loj hmem2 hnd2 hg hla hlb hkey

/-- Two stops whose coordinates agree after 4-decimal rounding (the first
such stop at relative `j1`, a later one at `j2`) always produce the
close-coordinates warning naming both absolute indices. -/
lemma validateGo_coord_main (F : List VRec) (key : ℚ × ℚ) :
    ∀ (sfx : List VRec) (idx0 : ℕ) (sn : List (String × ℕ)) (sc : List ((ℚ × ℚ) × ℕ))
      (j1 j2 : ℕ) (r1 r2 : VRec) (la1 lo1 la2 lo2 : ℚ),
      j1 < j2 → sfx.get? j1 = some r1 → sfx.get? j2 = some r2 →
      r1.lat = some la1 → r1.lng = some lo1 → (round4 la1, round4 lo1) = key →
      r2.lat = some la2 → r2.lng = some lo2 → (round4 la2, round4 lo2) = key →
      (∀ k rk lak lok, k < j1 → sfx.get? k = some rk → rk.lat = some lak →
        rk.lng = some lok → (round4 lak, round4 lok) ≠ key) →
      key ∉ sc.map Prod.fst → (sc.map Prod.fst).Nodup →
      VMsg.closeCoords (nameKey (idx0 + j2) r2) (idx0 + j2) (otherNameOf F (idx0 + j1))
        (idx0 + j1) ∈ (validateGo F idx0 sfx sn sc).2 := by
  intro sfx
  induction sfx with
  | nil =>
    intro idx0 sn sc j1 j2 r1 r2 la1 lo1 la2 lo2 _ hg1 _ _ _ _ _ _ _ _ _ _
    simp [List.get?] at hg1
  | cons r rest ih =>
    intro idx0 sn sc j1 j2 r1 r2 la1 lo1 la2 lo2 hlt hg1 hg2 hla1 hlo1 hkey1
      hla2 hlo2 hkey2 hfirst hnotin hnd
    cases j1 with
    | zero =>
      rw [Nat.add_zero]
      rw [List.get?_cons_zero, Option.some_inj] at hg1
      subst hg1
      cases j2 with
      | zero => omega
      | succ m =>
        rw [List.get?_cons_succ] at hg2
        have hshift : idx0 + (m + 1) = idx0 + 1 + m := by omega
        rw [hshift]
        rw [validateGo_cons_warns]
        apply List.mem_append_right
        rw [processOne_sc]
        have hl : vlookup (round4 la1, round4 lo1) sc = none := by
          rw [vlookup_eq_none_iff, hkey1]
          exact hnotin
        simp only [coordPart, hla1, hlo1, hl]
        have hmem2 : (key, idx0) ∈ ((round4 la1, round4 lo1), idx0) :: sc := by
          rw [hkey1]
          exact List.mem_cons_self _ _
        have hnd2 : ((((round4 la1, round4 lo1), idx0) :: sc).map Prod.fst).Nodup := by
          rw [List.map_cons, List.nodup_cons]
          exact ⟨vlookup_eq_none_iff.mp hl, hnd⟩
        exact validateGo_coord_found F key idx0 rest (idx0 + 1) _ _ m r2 la2 lo2
          hmem2 hnd2 hg2 hla2 hlo2 hkey2
    | succ m1 =>
      cases j2 with
      | zero => omega
      | succ m2 =>
        rw [List.get?_cons_succ] at hg1 hg2
        have hshift1 : idx0 + (m1 + 1) = idx0 + 1 + m1 := by omega
        have hshift2 : idx0 + (m2 + 1) = idx0 + 1 + m2 := by omega
        rw [hshift1, hshift2]
        rw [validateGo_cons_warns]
        apply List.mem_append_right
        rw [processOne_sc]
        have hfirst2 : ∀ k rk lak lok, k < m1 → rest.get? k = some rk →
            rk.lat = some lak → rk.lng = some lok →
            (round4 lak, round4 lok) ≠ key := by
          intro k rk lak lok hkm hgk hlak hlok
          exact hfirst (k + 1) rk lak lok (by omega) (by simpa using hgk) hlak hlok
        rcases coordPart_sc_cases F idx0 (nameKey idx0 r) r sc with
          hcase | ⟨la, lo, hla, hlo, hl, hcase⟩
        · rw [hcase]
          exact ih (idx0 + 1) _ _ m1 m2 r1 r2 la1 lo1 la2 lo2 (by omega) hg1 hg2
            hla1 hlo1 hkey1 hla2 hlo2 hkey2 hfirst2 hnotin hnd
        · rw [hcase]
          have hkne : (round4 la, round4 lo) ≠ key :=
            hfirst 0 r la lo (Nat.succ_pos m1) List.get?_cons_zero hla hlo
          have hnotin2 : key ∉ (((round4 la, round4 lo), idx0) :: sc).map Prod.fst := by
            rw [List.map_cons, List.mem_cons]
            rintro (hcon | hcon)
            · exact hkne hcon.symm
            · exact hnotin hcon
          have hnd2 : ((((round4 la, round4 lo), idx0) :: sc).map Prod.fst).Nodup := by
            rw [List.map_cons, List.nodup_cons]
            exact ⟨vlookup_eq_none_iff.mp hl, hnd⟩
          exact ih (idx0 + 1) _ _ m1 m2 r1 r2 la1 lo1 la2 lo2 (by omega) hg1 hg2
            hla1 hlo1 hkey1 hla2 hlo2 hkey2 hfirst2 hnotin2 hnd2

lemma not_close_dupNamePart (idx : ℕ) (nk : String) (sn : List (String × ℕ)) :
    ∀ m ∈ (dupNamePart idx nk sn).1, m.isCloseCoords = false := by
  intro m hm
  unfold dupNamePart at hm
  cases hl : vlookup nk sn with
  | none =>
    simp only [hl] at hm
    simp at hm
  | some j =>
    simp only [hl] at hm
    rw [List.mem_singleton] at hm
    rw [hm]
    rfl

lemma not_close_convErrs (idx : ℕ) (nk : String) (r : VRec) :
    ∀ m ∈ convErrs idx nk r, m.isCloseCoords = false := by
  intro m hm
  unfold convErrs at hm
  rw [List.mem_append] at hm
  rcases hm with hm | hm
  · rcases hla : r.lat with _ | la <;> simp only [hla] at hm
    · rw [List.mem_singleton] at hm
      rw [hm]
      rfl
    · simp at hm
  · rcases hlb : r.lng with _ | lo <;> simp only [hlb] at hm
    · rw [List.mem_singleton] at hm
      rw [hm]
      rfl
    · simp at hm

lemma not_close_rangeErrs (idx : ℕ) (nk : String) (r : VRec) :
    ∀ m ∈ rangeErrs idx nk r, m.isCloseCoords = false := by
  intro m hm
  unfold rangeErrs at hm
  rw [List.mem_append, List.mem_append] at hm
  rcases hm with (hm | hm) | hm
  · rcases hla : r.lat with _ | la <;> simp only [hla] at hm
    · simp at hm
    · split at hm
      · rw [List.mem_singleton] at hm
        rw [hm]
        rfl
      · simp at hm
  · rcases hlb : r.lng with _ | lo <;> simp only [hlb] at hm
    · simp at hm
    · split at hm
      · rw [List.mem_singleton] at hm
        rw [hm]
        rfl
      · simp at hm
  · rcases htz : r.tz with _ | tz <;> simp only [htz] at hm
    · simp at hm
    · split at hm
      · rw [List.mem_singleton] at hm
        rw [hm]
        rfl
      · simp at hm

/-- Close-coordinate findings never appear in the error list: every error
the main loop can emit is of a non-coordinate-proximity kind. -/
lemma validateGo_errs_not_close (F : List VRec) :
    ∀ (sfx : List VRec) (idx0 : ℕ) (sn : List (String × ℕ)) (sc : List ((ℚ × ℚ) × ℕ)),
      ∀ m ∈ (validateGo F idx0 sfx sn sc).1, m.isCloseCoords = false := by
  intro sfx
  induction sfx with
  | nil => intro _ _ _ m hm; simp [validateGo] at hm
  | cons r rest ih =>
    intro idx0 sn sc m hm
    rw [validateGo_cons_errs, List.mem_append] at hm
    rcases hm with hm | hm
    · rw [processOne_errs] at hm
      rw [List.mem_append] at hm
      rcases hm with hm | hm
      · rw [List.mem_append] at hm
        rcases hm with hm | hm
        · exact not_close_dupNamePart _ _ _ m hm
        · exact not_close_convErrs _ _ _ m hm
      · exact not_close_rangeErrs _ _ _ m hm
    · exact ih _ _ _ m hm

/-- C9: `validate_locations` reports a duplicate display name as an error
naming both indices; reports two stops with equal 4-decimal-rounded
coordinates as a warning naming both indices, never as an error; and
`valid` is true exactly when the error list is empty, warnings alone never
making it false. -/
theorem C9_validate_locations (F : List VRec) :
    (∀ i j ri rj, i < j → F.get? i = some ri → F.get? j = some rj →
      nameKey j rj = nameKey i ri →
      (∀ k rk, k < i → F.get? k = some rk → nameKey k rk ≠ nameKey i ri) →
      VMsg.dupName (nameKey i ri) i j ∈ (validate_locations F).errors) ∧
    (∀ i j ri rj lai loi laj loj, i < j → F.get? i = some ri → F.get? j = some rj →
      ri.lat = some lai → ri.lng = some loi → rj.lat = some laj → rj.lng = some loj →
      (round4 laj, round4 loj) = (round4 lai, round4 loi) →
      (∀ k rk lak lok, k < i → F.get? k = some rk → rk.lat = some lak →
        rk.lng = some lok → (round4 lak, round4 lok) ≠ (round4 lai, round4 loi)) →
      VMsg.closeCoords (nameKey j rj) j (otherNameOf F i) i ∈
        (validate_locations F).warnings) ∧
    (∀ m ∈ (validate_locations F).errors, m.isCloseCoords = false) ∧
    ((validate_locations F).valid = true ↔ (validate_locations F).errors = []) := by
  refine ⟨?_, ?_, ?_, ?_⟩
  · intro i j ri rj hij hgi hgj hkey hfirst
    have h := validateGo_dup_main F (nameKey i ri) F 0 [] [] i j ri rj hij hgi hgj
      (by rw [Nat.zero_add]) (by rw [Nat.zero_add]; exact hkey)
      (fun k rk hk hgk => by rw [Nat.zero_add]; exact hfirst k rk hk hgk)
      (by simp) (by simp)
    rw [Nat.zero_add, Nat.zero_add] at h
    exact h
  · intro i j ri rj lai loi laj loj hij hgi hgj hlai hloi hlaj hloj hkey hfirst
    have h := validateGo_coord_main F (round4 lai, round4 loi) F 0 [] [] i j ri rj
      lai loi laj loj hij hgi hgj hlai hloi rfl hlaj hloj hkey
      (fun k rk lak lok hk hgk hlak hlok => hfirst k rk lak lok hk hgk hlak hlok)
      (by simp) (by simp)
    rw [Nat.zero_add, Nat.zero_add] at h
    exact h
  · intro m hm
    exact validateGo_errs_not_close F F 0 [] [] m hm
  · show ((validateGo F 0 F [] []).1.isEmpty = true) ↔ _
    rw [List.isEmpty_iff]
    exact Iff.rfl

def demoParis1 : VRec := { name := some "Paris", lat := some 48, lng := some 2, tz := some 1 }

def demoParis2 : VRec := { name := some "Paris", lat := some 10, lng := some 20, tz := some 0 }

def demoX : VRec := { name := some "X", lat := some 48, lng := some 2, tz := some 1 }

/-- Witness for C9: two stops named "Paris" yield the duplicate-name error
naming indices 0 and 1; a third stop at the same coordinates as the first
yields the close-coordinates warning naming indices 2 and 0. -/
theorem C9_validate_locations_witness :
    VMsg.dupName "Paris" 0 1 ∈
      (validate_locations [demoParis1, demoParis2, demoX]).errors ∧
    VMsg.closeCoords "X" 2 (some "Paris") 0 ∈
      (validate_locations [demoParis1, demoParis2, demoX]).warnings := by
  have h := C9_validate_locations [demoParis1, demoParis2, demoX]
  constructor
  · exact h.1 0 1 demoParis1 demoParis2 (by omega) rfl rfl rfl
      (fun k rk hk _ => absurd hk (Nat.not_lt_zero k))
  · exact h.2.1 0 2 demoParis1 demoX 48 2 48 2 (by omega) rfl rfl rfl rfl rfl rfl rfl
      (fun k rk lak lok hk _ _ _ => absurd hk (Nat.not_lt_zero k))

end Santa
